import Mathlib

/-!
# Verification of the tts-ln pipeline orchestrator

Shallow embedding of the pipeline orchestrator of the `tts-ln` repository
(chapter discovery, routing, idempotency checks, retry policy, the remote-sync
dedup lock and the Redis-backed store), together with theorems settling the
frozen claims about its natural-language specification.

Conventions:
* Python `None`-able values become `Option`.
* Ambient effects (`datetime.utcnow()`, `os.getcwd()`, collaborator calls such
  as the scraper or `subprocess.run`) become explicit parameters.
* The Redis store is modelled per entity type as a map from identifier to
  record (the real keys are `f"{model_type}:{identifier}"`, disjoint by type),
  plus the raw string keys (`rsync_lock:*`) and sets the sync worker uses.
* Queue sends (`app.send_task`) are collected in an output list.
-/

namespace TtsLn

/-! ## Data model: `src/libs/models.py` -/

/-- `Status` enum (`src/libs/models.py` lines 11-15). -/
inductive Status where
  | pending
  | processing
  | completed
  | failed
deriving DecidableEq, Repr

/-- Serialized string value of a `Status` member. -/
def Status.value : Status → String
  | .pending => "pending"
  | .processing => "processing"
  | .completed => "completed"
  | .failed => "failed"

/-- `BookChapterLink` dataclass (`src/libs/models.py` lines 236-240):
a scraped chapter link with title and URL. -/
structure BookChapterLink where
  title : String
  url : String
deriving DecidableEq, Repr

/-! ## Book-Discovery range filtering: `src/workers/book/tasks.py` -/

/-- `_find_chapter_index(chapters, url)` (`src/workers/book/tasks.py` lines
40-42): `next((i for i, chapter in enumerate(chapters) if chapter.url == url),
None)` — the index of the first chapter whose `url` equals `url`, else `None`. -/
def findChapterIndex : List BookChapterLink → String → Option Nat
  | [], _ => none
  | c :: rest, url =>
    if c.url = url then some 0 else (findChapterIndex rest url).map (· + 1)

/-- Placeholder used to express the total Python indexing `chapters[i]`
(always in bounds where it is used). -/
def defaultLink : BookChapterLink := ⟨"", ""⟩

/-- `filter_chapters(chapters, start_from, end_at)` (`src/workers/book/tasks.py`
lines 11-37): locate both marker URLs; return `None` if the start URL is
absent, the end URL is absent, or the end index is before the start index;
otherwise return `[(i, chapters[i]) for i in range(start_index, end_index+1)]`. -/
def filter_chapters (chapters : List BookChapterLink) (start_from end_at : String) :
    Option (List (Nat × BookChapterLink)) :=
  match findChapterIndex chapters start_from with
  | none => none
  | some start_index =>
    match findChapterIndex chapters end_at with
    | none => none
    | some end_index =>
      if end_index < start_index then none
      else
        some ((List.range' start_index (end_index + 1 - start_index)).map
          (fun i => (i, chapters.getD i defaultLink)))

/-- Specification-side description of the "inclusive sub-list of (index,
chapter) pairs from position `s` through position `e`": the enumerated
chapter list with the first `s` entries dropped and `e - s + 1` kept. -/
def inclusiveSlice (chapters : List BookChapterLink) (s e : Nat) :
    List (Nat × BookChapterLink) :=
  ((chapters.enum).drop s).take (e + 1 - s)

/-- A found index points into the list and at a matching URL. -/
theorem findChapterIndex_lt_length {chapters : List BookChapterLink}
    {url : String} {i : Nat} (h : findChapterIndex chapters url = some i) :
    i < chapters.length := by
  induction chapters generalizing i with
  | nil => simp [findChapterIndex] at h
  | cons c rest ih =>
    by_cases hc : c.url = url
    · simp [findChapterIndex, hc] at h
      simp [← h]
    · simp [findChapterIndex, hc] at h
      obtain ⟨j, hj, rfl⟩ := h
      have := ih hj
      simpa using Nat.succ_lt_succ this

/-- A found index points at a chapter with the sought URL. -/
theorem findChapterIndex_url {chapters : List BookChapterLink}
    {url : String} {i : Nat} (h : findChapterIndex chapters url = some i) :
    (chapters.getD i defaultLink).url = url := by
  induction chapters generalizing i with
  | nil => simp [findChapterIndex] at h
  | cons c rest ih =>
    by_cases hc : c.url = url
    · simp [findChapterIndex, hc] at h
      simp [← h, hc]
    · simp [findChapterIndex, hc] at h
      obtain ⟨j, hj, rfl⟩ := h
      simpa using ih hj

/-- The body of the list comprehension in `filter_chapters` produces exactly
the inclusive slice of the enumerated chapter list. -/
theorem range'_map_eq_inclusiveSlice (chapters : List BookChapterLink)
    (s e : Nat) (he : e < chapters.length) (hse : s ≤ e) :
    (List.range' s (e + 1 - s)).map (fun i => (i, chapters.getD i defaultLink)) =
      inclusiveSlice chapters s e := by
  apply List.ext_getElem
  · simp [inclusiveSlice]
    omega
  · intro i h1 h2
    have hlen1 : i < e + 1 - s := by simpa using h1
    have hsi : s + i < chapters.length := by omega
    have hL : ((List.range' s (e + 1 - s)).map
        (fun i => (i, chapters.getD i defaultLink)))[i] =
        (s + i, chapters.getD (s + i) defaultLink) := by
      simp
    have hR : (inclusiveSlice chapters s e)[i] = (s + i, chapters[s + i]) := by
      have hdrop : i < (chapters.enum.drop s).length := by simp; omega
      unfold inclusiveSlice
      rw [List.getElem_take (chapters.enum.drop s)]
      rw [List.getElem_drop]
      exact List.getElem_enum chapters (s + i) _
    rw [hL, hR]
    have : chapters.getD (s + i) defaultLink = chapters[s + i] := by
      simp [List.getD_eq_getElem?_getD, List.getElem?_eq_getElem hsi]
    rw [this]

/-- Four-chapter list from the specification's worked example: chapters
`[A,B,C,D]` with URLs `a,b,c,d`. -/
def exampleChapters : List BookChapterLink :=
  [⟨"A", "a"⟩, ⟨"B", "b"⟩, ⟨"C", "c"⟩, ⟨"D", "d"⟩]

/-- C3: `filter_chapters` returns the inclusive sub-list of (index, chapter)
pairs from the start marker's position through the end marker's position when
both URLs occur in the list and the start position precedes or equals the end
position; it returns `none` when the start URL is absent, the end URL is
absent, or the end position precedes the start position; and on the worked
example `[A,B,C,D]` with URLs `a,b,c,d`, start `b` and end `c` give
`[(1,B),(2,C)]` while start `c` and end `b` give `none`. -/
theorem C3_filter_chapters_range_validity :
    (∀ (chapters : List BookChapterLink) (start_from end_at : String) (s e : Nat),
      findChapterIndex chapters start_from = some s →
      findChapterIndex chapters end_at = some e →
      s ≤ e →
      filter_chapters chapters start_from end_at = some (inclusiveSlice chapters s e)) ∧
    (∀ (chapters : List BookChapterLink) (start_from end_at : String),
      findChapterIndex chapters start_from = none →
      filter_chapters chapters start_from end_at = none) ∧
    (∀ (chapters : List BookChapterLink) (start_from end_at : String),
      findChapterIndex chapters end_at = none →
      filter_chapters chapters start_from end_at = none) ∧
    (∀ (chapters : List BookChapterLink) (start_from end_at : String) (s e : Nat),
      findChapterIndex chapters start_from = some s →
      findChapterIndex chapters end_at = some e →
      e < s →
      filter_chapters chapters start_from end_at = none) ∧
    (filter_chapters exampleChapters "b" "c" =
       some [(1, ⟨"B", "b"⟩), (2, ⟨"C", "c"⟩)] ∧
     filter_chapters exampleChapters "c" "b" = none) := by
  refine ⟨?_, ?_, ?_, ?_, by decide, by decide⟩
  · intro chapters start_from end_at s e hs he hse
    have helen : e < chapters.length := findChapterIndex_lt_length he
    unfold filter_chapters
    simp only [hs, he]
    rw [if_neg (by omega)]
    rw [range'_map_eq_inclusiveSlice chapters s e helen hse]
  · intro chapters start_from end_at hs
    unfold filter_chapters
    rw [hs]
  · intro chapters start_from end_at he
    unfold filter_chapters
    cases hs : findChapterIndex chapters start_from <;> simp [he]
  · intro chapters start_from end_at s e hs he hes
    unfold filter_chapters
    simp only [hs, he]
    rw [if_pos hes]

/-- Concrete instantiation of `C3_filter_chapters_range_validity`: on the
worked example the in-range branch yields the inclusive slice from index 1
through index 2. -/
theorem C3_filter_chapters_range_validity_witness :
    filter_chapters exampleChapters "b" "c" =
      some (inclusiveSlice exampleChapters 1 2) :=
  C3_filter_chapters_range_validity.1 exampleChapters "b" "c" 1 2
    (by decide) (by decide) (by decide)

/-! ## MD5

The models compute fingerprints with `hashlib.md5(data_str.encode()).hexdigest()`
(`src/libs/models.py` lines 72-75 and 256-258).  This is the RFC 1321 MD5
algorithm, embedded here over `Nat` bytes/words with explicit reduction
modulo `2^32`. -/

namespace MD5

/-- `2^32`, the word modulus. -/
def m32 : Nat := 4294967296

/-- 32-bit addition. -/
def add32 (a b : Nat) : Nat := (a + b) % m32

/-- 32-bit bitwise complement. -/
def not32 (x : Nat) : Nat := 4294967295 ^^^ x

/-- 32-bit left rotation by `s` (for `0 < s < 32`). -/
def rotl32 (x s : Nat) : Nat := ((x <<< s) % m32) ||| (x >>> (32 - s))

/-- Per-round left-rotation amounts. -/
def sTable : List Nat :=
  [7, 12, 17, 22, 7, 12, 17, 22, 7, 12, 17, 22, 7, 12, 17, 22,
   5, 9, 14, 20, 5, 9, 14, 20, 5, 9, 14, 20, 5, 9, 14, 20,
   4, 11, 16, 23, 4, 11, 16, 23, 4, 11, 16, 23, 4, 11, 16, 23,
   6, 10, 15, 21, 6, 10, 15, 21, 6, 10, 15, 21, 6, 10, 15, 21]

/-- Sine-derived additive constants `⌊2^32·|sin(i+1)|⌋`. -/
def kTable : List Nat :=
  [0xd76aa478, 0xe8c7b756, 0x242070db, 0xc1bdceee,
   0xf57c0faf, 0x4787c62a, 0xa8304613, 0xfd469501,
   0x698098d8, 0x8b44f7af, 0xffff5bb1, 0x895cd7be,
   0x6b901122, 0xfd987193, 0xa679438e, 0x49b40821,
   0xf61e2562, 0xc040b340, 0x265e5a51, 0xe9b6c7aa,
   0xd62f105d, 0x02441453, 0xd8a1e681, 0xe7d3fbc8,
   0x21e1cde6, 0xc33707d6, 0xf4d50d87, 0x455a14ed,
   0xa9e3e905, 0xfcefa3f8, 0x676f02d9, 0x8d2a4c8a,
   0xfffa3942, 0x8771f681, 0x6d9d6122, 0xfde5380c,
   0xa4beea44, 0x4bdecfa9, 0xf6bb4b60, 0xbebfbc70,
   0x289b7ec6, 0xeaa127fa, 0xd4ef3085, 0x04881d05,
   0xd9d4d039, 0xe6db99e5, 0x1fa27cf8, 0xc4ac5665,
   0xf4292244, 0x432aff97, 0xab9423a7, 0xfc93a039,
   0x655b59c3, 0x8f0ccc92, 0xffeff47d, 0x85845dd1,
   0x6fa87e4f, 0xfe2ce6e0, 0xa3014314, 0x4e0811a1,
   0xf7537e82, 0xbd3af235, 0x2ad7d2bb, 0xeb86d391]

/-- Little-endian byte decomposition, `n` bytes of `x`. -/
def toLE (n x : Nat) : List Nat :=
  (List.range n).map (fun i => (x >>> (8 * i)) % 256)

/-- Little-endian byte composition. -/
def fromLE (bs : List Nat) : Nat :=
  bs.foldr (fun b acc => b + 256 * acc) 0

/-- MD5 padding: a `0x80` byte, zeros to 56 mod 64, then the 8-byte
little-endian bit length. -/
def padMessage (msg : List Nat) : List Nat :=
  let zeros := (56 + 64 - (msg.length + 1) % 64) % 64
  msg ++ [0x80] ++ List.replicate zeros 0 ++
    toLE 8 ((msg.length * 8) % (2 ^ 64))

/-- Word `g` (0-15) of chunk `c` of a padded message. -/
def chunkWord (padded : List Nat) (c g : Nat) : Nat :=
  fromLE ((padded.drop (64 * c + 4 * g)).take 4)

/-- One of the 64 MD5 operations on the state `(a, b, c, d)`, where `M` gives
the 16 words of the current chunk. -/
def op (M : Nat → Nat) (st : Nat × Nat × Nat × Nat) (i : Nat) :
    Nat × Nat × Nat × Nat :=
  let a := st.1
  let b := st.2.1
  let c := st.2.2.1
  let d := st.2.2.2
  let f :=
    if i < 16 then (b &&& c) ||| (not32 b &&& d)
    else if i < 32 then (d &&& b) ||| (not32 d &&& c)
    else if i < 48 then b ^^^ c ^^^ d
    else c ^^^ (b ||| not32 d)
  let g :=
    if i < 16 then i
    else if i < 32 then (5 * i + 1) % 16
    else if i < 48 then (3 * i + 5) % 16
    else (7 * i) % 16
  let tmp := add32 (add32 (add32 a f) (kTable.getD i 0)) (M g)
  (d, add32 b (rotl32 tmp (sTable.getD i 0)), b, c)

/-- Process one 64-byte chunk: 64 operations, then add into the running state. -/
def processChunk (st : Nat × Nat × Nat × Nat) (M : Nat → Nat) :
    Nat × Nat × Nat × Nat :=
  let r := (List.range 64).foldl (op M) st
  (add32 st.1 r.1, add32 st.2.1 r.2.1, add32 st.2.2.1 r.2.2.1,
   add32 st.2.2.2 r.2.2.2)

/-- MD5 of a byte sequence: the 16 digest bytes. -/
def md5Bytes (msg : List Nat) : List Nat :=
  let padded := padMessage msg
  let final := (List.range (padded.length / 64)).foldl
    (fun st c => processChunk st (chunkWord padded c))
    (0x67452301, 0xefcdab89, 0x98badcfe, 0x10325476)
  toLE 4 final.1 ++ toLE 4 final.2.1 ++ toLE 4 final.2.2.1 ++ toLE 4 final.2.2.2

/-- Lower-case hexadecimal digit. -/
def hexDigit (n : Nat) : Char :=
  if n < 10 then Char.ofNat (48 + n) else Char.ofNat (87 + n)

/-- Two-digit lower-case hex rendering of a byte. -/
def byteToHex (b : Nat) : String :=
  String.mk [hexDigit (b / 16), hexDigit (b % 16)]

/-- `hashlib.md5(s.encode()).hexdigest()`: MD5 of the UTF-8 encoding of `s`,
rendered as 32 lower-case hex digits. -/
def hexdigest (s : String) : String :=
  String.join ((md5Bytes (s.toUTF8.toList.map (fun b => b.toNat))).map byteToHex)

end MD5

/-! ## Entity records: `src/libs/models.py` -/

/-- `name_to_slug` (`src/libs/models.py` lines 68-70):
`name.replace(" ", "_").lower()`. -/
def nameToSlug (name : String) : String :=
  (name.replace " " "_").toLower

/-- `ChapterProcessingData` (`src/libs/models.py` lines 17-130): the Chapter
entity.  `chapter_number` is `Option` because the Python default is `None`. -/
structure ChapterProcessingData where
  chapter_hash : String
  chapter_number : Option Nat
  book_hash : String
  status : Status
  created_at : String
  title : String
  url : String
  book_name : String
  static_base_path : String
  cover_image_location : String
  text_file_location : String
  subtitle_file_location : String
  wav_file_location : String
  mp3_file_location : String
  mp4_file_location : String
deriving DecidableEq, Repr

/-- `ChapterProcessingData.generate_hash` (`src/libs/models.py` lines 72-75):
`hashlib.md5(f"{self.title}:{self.url}".encode()).hexdigest()`, as a function
of the title and URL it reads from `self`. -/
def chapterHashOf (title url : String) : String :=
  MD5.hexdigest (title ++ ":" ++ url)

/-- The `generate_hash` method itself, reading `self.title` and `self.url`. -/
def ChapterProcessingData.generate_hash (c : ChapterProcessingData) : String :=
  chapterHashOf c.title c.url

/-- `ChapterProcessingData.__init__` (`src/libs/models.py` lines 38-66).
`cwd` stands for the ambient `os.getcwd()`.  Optional arguments default as in
the source: file locations from the book/title slugs, `chapter_hash` from
`generate_hash()`.  Note the source always recomputes `cover_image_location`,
ignoring the argument of the same name. -/
def ChapterProcessingData.init (cwd : String) (book_hash : String)
    (status : Status) (created_at title url book_name : String)
    (chapter_hash : Option String) (chapter_number : Option Nat)
    (text_file_location subtitle_file_location wav_file_location
     mp3_file_location mp4_file_location static_base_path
     cover_image_location : Option String) : ChapterProcessingData :=
  let base := static_base_path.getD (cwd ++ "/static")
  let file_name := nameToSlug book_name ++ "/" ++ nameToSlug title
  { chapter_hash := chapter_hash.getD (chapterHashOf title url)
    chapter_number := chapter_number
    book_hash := book_hash
    status := status
    created_at := created_at
    title := title
    url := url
    book_name := book_name
    static_base_path := base
    cover_image_location := base ++ "/cover/" ++ nameToSlug book_name ++ ".jpg"
    text_file_location := text_file_location.getD (base ++ "/txt/" ++ file_name ++ ".txt")
    subtitle_file_location := subtitle_file_location.getD (base ++ "/mp3/" ++ file_name ++ ".srt")
    wav_file_location := wav_file_location.getD (base ++ "/wav/" ++ file_name ++ ".wav")
    mp3_file_location := mp3_file_location.getD (base ++ "/mp3/" ++ file_name ++ ".mp3")
    mp4_file_location := mp4_file_location.getD (base ++ "/mp4/" ++ file_name ++ ".mp4") }

/-- `ScrapedBook` (`src/libs/models.py` lines 242-310): title, chapter link
list, optional metadata URL, hash. -/
structure ScrapedBook where
  title : String
  chapters : List BookChapterLink
  metadata_url : Option String
  book_hash : String
deriving DecidableEq, Repr

/-- `ScrapedBook.generate_hash` (`src/libs/models.py` lines 256-258):
`hashlib.md5(self.title.encode()).hexdigest()`. -/
def bookHashOf (title : String) : String :=
  MD5.hexdigest title

/-- The `generate_hash` method itself, reading `self.title`. -/
def ScrapedBook.generate_hash (b : ScrapedBook) : String :=
  bookHashOf b.title

/-- `ScrapedBook.__init__` (`src/libs/models.py` lines 250-254):
`book_hash = book_hash or self.generate_hash()`. -/
def ScrapedBook.init (title : String) (chapters : List BookChapterLink)
    (book_hash : Option String) (metadata_url : Option String) : ScrapedBook :=
  { title := title
    chapters := chapters
    metadata_url := metadata_url
    book_hash := book_hash.getD (bookHashOf title) }

/-- `ScrapedChapterContent` (`src/libs/models.py` lines 179-234). -/
structure ScrapedChapterContent where
  title : String
  content : String
  url : Option String
  chapter_hash : Option String
deriving DecidableEq, Repr

/-- `ScrapedMetadata` (`src/libs/models.py` lines 312-373): book-level
metadata tags; every field defaults to `None`. -/
structure ScrapedMetadata where
  album : Option String
  artist : Option String
  album_artist : Option String
  comment : Option String
  composer : Option String
  copyright : Option String
  genre : Option String
  compilation : Option String
  title : Option String
  track : Option String
  released_year : Option String
  image : Option String
  description : Option String
  created_at : Option String
deriving DecidableEq, Repr

/-- C9: the chapter fingerprint is a pure function of (title, source URL) and
the book fingerprint a pure function of the title: two `ChapterProcessingData`
records agreeing on `title` and `url` have equal `generate_hash` values
regardless of every other attribute, and two `ScrapedBook` records agreeing on
`title` have equal `generate_hash` values regardless of every other
attribute.  (Recomputing on the same record twice is the special case
`c1 = c2`.) -/
theorem C9_fingerprint_pure_function :
    (∀ c1 c2 : ChapterProcessingData, c1.title = c2.title → c1.url = c2.url →
      c1.generate_hash = c2.generate_hash) ∧
    (∀ b1 b2 : ScrapedBook, b1.title = b2.title →
      b1.generate_hash = b2.generate_hash) := by
  constructor
  · intro c1 c2 ht hu
    unfold ChapterProcessingData.generate_hash
    rw [ht, hu]
  · intro b1 b2 ht
    unfold ScrapedBook.generate_hash
    rw [ht]

/-- Concrete instantiation of `C9_fingerprint_pure_function`: two chapter
records sharing only title and URL (all other attributes differ) have the same
fingerprint, and likewise two book records sharing only the title. -/
theorem C9_fingerprint_pure_function_witness :
    (ChapterProcessingData.init "/app" "bh1" Status.pending "t1" "Ch 1" "u1"
        "Book A" none (some 1) none none none none none none none).generate_hash =
      (ChapterProcessingData.init "/other" "bh2" Status.completed "t2" "Ch 1" "u1"
        "Book B" (some "override") (some 7) none none none none none none none).generate_hash ∧
    (ScrapedBook.init "Book A" [] none none).generate_hash =
      (ScrapedBook.init "Book A" [⟨"c", "u"⟩] (some "h") (some "m")).generate_hash :=
  ⟨C9_fingerprint_pure_function.1 _ _ rfl rfl,
   C9_fingerprint_pure_function.2 _ _ rfl⟩

/-! ## The durable store (`src/libs/db.py`, typed view)

Redis keys are `f"{model_type}:{identifier}"`, so the keyspace splits into
disjoint per-type maps; the sync worker additionally uses raw string keys
(`rsync_lock:{book}`) and sets (`rsync_pending_books`, `book:{h}:chapters`,
`{model_type}:all`). -/

structure DB where
  chapters : String → Option ChapterProcessingData
  books : String → Option ScrapedBook
  metadata : String → Option ScrapedMetadata
  contents : String → Option ScrapedChapterContent
  strKeys : String → Option String
  sets : String → List String

/-- Point update of a string-keyed map. -/
def updFn {α : Type} (f : String → Option α) (k : String) (v : α) :
    String → Option α :=
  fun k' => if k' = k then some v else f k'

/-- Point removal from a string-keyed map (`redis_client.delete`). -/
def delFn {α : Type} (f : String → Option α) (k : String) :
    String → Option α :=
  fun k' => if k' = k then none else f k'

/-- `redis_client.sadd k v` on the modelled sets. -/
def saddFn (s : String → List String) (k v : String) : String → List String :=
  fun k' => if k' = k then (if v ∈ s k then s k else v :: s k) else s k'

/-- `redis_client.srem k v` on the modelled sets. -/
def sremFn (s : String → List String) (k v : String) : String → List String :=
  fun k' => if k' = k then (s k).filter (· ≠ v) else s k'

/-- `ChapterProcessingData.save` (`src/libs/models.py` lines 77-85):
`db.save(self, self.chapter_hash)` (write the record, `sadd` the type's `all`
set) followed by `save_book_chapter` (`sadd book:{book_hash}:chapters`). -/
def DB.saveChapter (db : DB) (c : ChapterProcessingData) : DB :=
  { db with
    chapters := updFn db.chapters c.chapter_hash c
    sets := saddFn
      (saddFn db.sets "chapterprocessingdata:all" c.chapter_hash)
      ("book:" ++ c.book_hash ++ ":chapters") c.chapter_hash }

/-- `ScrapedChapterContent.save` (`src/libs/models.py` lines 193-195). -/
def DB.saveContent (db : DB) (c : ScrapedChapterContent) (key : String) : DB :=
  { db with
    contents := updFn db.contents key c
    sets := saddFn db.sets "scrapedchaptercontent:all" key }

/-- `ScrapedMetadata.save(book_hash)` (`src/libs/models.py` lines 330-333). -/
def DB.saveMetadata (db : DB) (m : ScrapedMetadata) (book_hash : String) : DB :=
  { db with
    metadata := updFn db.metadata book_hash m
    sets := saddFn db.sets "scrapedmetadata:all" book_hash }

/-- `ScrapedMetadata.exists(h)` = `db.exists(cls, h)` = Redis key existence
(`src/libs/db.py` lines 149-153). -/
def DB.metadataExists (db : DB) (h : String) : Bool :=
  (db.metadata h).isSome

/-- The empty store. -/
def DB.empty : DB :=
  ⟨fun _ => none, fun _ => none, fun _ => none, fun _ => none,
   fun _ => none, fun _ => []⟩

/-! ## Queue sends -/

/-- One `app.send_task(task, args=[arg], queue=..., countdown=...)` call. -/
structure Dispatch where
  task : String
  arg : String
  queue : String
  countdown : Option Nat
deriving DecidableEq, Repr

/-! ## Book-Discovery worker: `src/workers/book/tasks.py` -/

/-- `_create_chapter_processing_data` (`src/workers/book/tasks.py` lines
84-110): a PENDING chapter for a scraped link; `now` stands for
`datetime.utcnow().isoformat()` and `cwd` for `os.getcwd()`. -/
def createChapterProcessingData (cwd now : String) (book_hash : String)
    (short_book_name : String) (chapter_number : Nat)
    (scraped_chapter : BookChapterLink) : ChapterProcessingData :=
  ChapterProcessingData.init cwd book_hash Status.pending now
    scraped_chapter.title scraped_chapter.url short_book_name
    none (some chapter_number) none none none none none none none

/-- `_is_chapter_already_completed` (`src/workers/book/tasks.py` lines
113-124): the chapter exists in the store and its status is COMPLETED. -/
def isChapterAlreadyCompleted (db : DB) (chapter_hash : String) : Bool :=
  match db.chapters chapter_hash with
  | none => false
  | some existing => decide (existing.status = Status.completed)

/-- `_dispatch_chapter_to_next_worker` (`src/workers/book/tasks.py` lines
127-159): if metadata exists for the book, send the chapter to the chapter
worker, else to the metadata worker. -/
def dispatchChapterToNextWorker (db : DB) (chapter : ChapterProcessingData)
    (book_hash : String) : List Dispatch :=
  if db.metadataExists book_hash then
    [⟨"worker.tasks.process_chapter", chapter.chapter_hash, "chapter-queue", none⟩]
  else
    [⟨"worker.tasks.process_metadata", chapter.chapter_hash, "metadata-queue", none⟩]

/-- `_process_filtered_chapters` (`src/workers/book/tasks.py` lines 162-188):
for each `(chapter_number, scraped_chapter)` build the chapter record, skip it
when already completed, otherwise save it and dispatch it.  Returns the final
store and the queue sends in order. -/
def processFilteredChapters (cwd now : String) (db : DB)
    (filtered_chapters : List (Nat × BookChapterLink))
    (book_hash short_book_name : String) : DB × List Dispatch :=
  match filtered_chapters with
  | [] => (db, [])
  | (chapter_number, scraped_chapter) :: rest =>
    let chapter := createChapterProcessingData cwd now book_hash
      short_book_name chapter_number scraped_chapter
    if isChapterAlreadyCompleted db chapter.chapter_hash then
      processFilteredChapters cwd now db rest book_hash short_book_name
    else
      let db1 := db.saveChapter chapter
      let sends := dispatchChapterToNextWorker db1 chapter book_hash
      let res := processFilteredChapters cwd now db1 rest book_hash short_book_name
      (res.1, sends ++ res.2)

/-- The fingerprint of the chapter a filtered entry creates: the chapter hash
of its link's title and URL. -/
def hashOfEntry (e : Nat × BookChapterLink) : String :=
  chapterHashOf e.2.title e.2.url

/-- Specification-side routing target for one fingerprint: the single task
send the Router performs, to the chapter queue when book metadata exists and
to the metadata queue otherwise. -/
def dispatchFor (db : DB) (book_hash h : String) : Dispatch :=
  if db.metadataExists book_hash then
    ⟨"worker.tasks.process_chapter", h, "chapter-queue", none⟩
  else
    ⟨"worker.tasks.process_metadata", h, "metadata-queue", none⟩

theorem createChapter_chapter_hash (cwd now bh name : String) (n : Nat)
    (sc : BookChapterLink) :
    (createChapterProcessingData cwd now bh name n sc).chapter_hash =
      chapterHashOf sc.title sc.url := rfl

theorem createChapter_status (cwd now bh name : String) (n : Nat)
    (sc : BookChapterLink) :
    (createChapterProcessingData cwd now bh name n sc).status =
      Status.pending := rfl

theorem saveChapter_metadata (db : DB) (c : ChapterProcessingData) :
    (db.saveChapter c).metadata = db.metadata := rfl

theorem saveChapter_chapters (db : DB) (c : ChapterProcessingData)
    (h : String) :
    (db.saveChapter c).chapters h =
      if h = c.chapter_hash then some c else db.chapters h := rfl

/-- Saving a PENDING chapter over a non-completed slot does not change which
fingerprints count as already completed. -/
theorem isCompleted_saveChapter (db : DB) (c : ChapterProcessingData)
    (hstat : c.status = Status.pending)
    (hfalse : isChapterAlreadyCompleted db c.chapter_hash = false)
    (h : String) :
    isChapterAlreadyCompleted (db.saveChapter c) h =
      isChapterAlreadyCompleted db h := by
  by_cases he : h = c.chapter_hash
  · subst he
    simp [isChapterAlreadyCompleted, saveChapter_chapters, hstat]
    exact hfalse
  · simp [isChapterAlreadyCompleted, saveChapter_chapters, he]

/-- The routing decision depends on the store only through the metadata map. -/
theorem dispatchFor_congr (db db' : DB) (hm : db'.metadata = db.metadata)
    (book_hash h : String) :
    dispatchFor db' book_hash h = dispatchFor db book_hash h := by
  unfold dispatchFor DB.metadataExists
  rw [hm]

/-- `_dispatch_chapter_to_next_worker` sends exactly the routing target of the
chapter's fingerprint. -/
theorem dispatchChapterToNextWorker_eq (db : DB)
    (c : ChapterProcessingData) (book_hash : String) :
    dispatchChapterToNextWorker db c book_hash =
      [dispatchFor db book_hash c.chapter_hash] := by
  unfold dispatchChapterToNextWorker dispatchFor
  by_cases hm : db.metadataExists book_hash <;> simp [hm]

theorem processFilteredChapters_nil (cwd now : String) (db : DB)
    (bh name : String) :
    processFilteredChapters cwd now db [] bh name = (db, []) := rfl

theorem processFilteredChapters_cons (cwd now : String) (db : DB) (n : Nat)
    (sc : BookChapterLink) (rest : List (Nat × BookChapterLink))
    (bh name : String) :
    processFilteredChapters cwd now db ((n, sc) :: rest) bh name =
      if isChapterAlreadyCompleted db (hashOfEntry (n, sc)) then
        processFilteredChapters cwd now db rest bh name
      else
        ((processFilteredChapters cwd now
            (db.saveChapter (createChapterProcessingData cwd now bh name n sc))
            rest bh name).1,
         dispatchChapterToNextWorker
            (db.saveChapter (createChapterProcessingData cwd now bh name n sc))
            (createChapterProcessingData cwd now bh name n sc) bh ++
         (processFilteredChapters cwd now
            (db.saveChapter (createChapterProcessingData cwd now bh name n sc))
            rest bh name).2) := rfl

/-- Loop invariant of `_process_filtered_chapters`: the metadata map is
untouched, completedness of every fingerprint is preserved, a slot changes
only if it was not completed and then holds a PENDING record, the sends are
exactly one routing target per non-completed entry (in order), and every
non-completed entry ends up stored with status PENDING. -/
theorem processFilteredChapters_spec (cwd now bh name : String) :
    ∀ (l : List (Nat × BookChapterLink)) (db : DB),
    ((processFilteredChapters cwd now db l bh name).1.metadata = db.metadata) ∧
    (∀ h, isChapterAlreadyCompleted
        (processFilteredChapters cwd now db l bh name).1 h =
        isChapterAlreadyCompleted db h) ∧
    (∀ h, (processFilteredChapters cwd now db l bh name).1.chapters h =
        db.chapters h ∨
      (isChapterAlreadyCompleted db h = false ∧
       ∃ rec, rec.status = Status.pending ∧
         (processFilteredChapters cwd now db l bh name).1.chapters h = some rec)) ∧
    ((processFilteredChapters cwd now db l bh name).2 =
      (l.filter fun e => ! isChapterAlreadyCompleted db (hashOfEntry e)).map
        (fun e => dispatchFor db bh (hashOfEntry e))) ∧
    (∀ e ∈ l,
      isChapterAlreadyCompleted db (hashOfEntry e) = false →
      ∃ rec, (processFilteredChapters cwd now db l bh name).1.chapters
          (hashOfEntry e) = some rec ∧ rec.status = Status.pending) := by
  intro l
  induction l with
  | nil =>
    intro db
    refine ⟨rfl, fun h => rfl, fun h => Or.inl rfl, rfl, ?_⟩
    intro e he
    simp at he
  | cons hd rest ih =>
    intro db
    obtain ⟨n, sc⟩ := hd
    by_cases hcomp : isChapterAlreadyCompleted db (hashOfEntry (n, sc)) = true
    · -- already completed: skipped, loop continues on the same store
      have heq : processFilteredChapters cwd now db ((n, sc) :: rest) bh name
          = processFilteredChapters cwd now db rest bh name := by
        rw [processFilteredChapters_cons, if_pos hcomp]
      obtain ⟨ih1, ih2, ih3, ih4, ih5⟩ := ih db
      rw [heq]
      refine ⟨ih1, ih2, ih3, ?_, ?_⟩
      · rw [ih4]
        simp [hcomp]
      · intro e he hfe
        rcases List.mem_cons.mp he with he' | hmem
        · rw [he'] at hfe
          rw [hfe] at hcomp
          simp at hcomp
        · exact ih5 e hmem hfe
    · -- not completed: save PENDING, dispatch, continue on the updated store
      have hcompf : isChapterAlreadyCompleted db (hashOfEntry (n, sc)) = false := by
        simpa using hcomp
      have heq : processFilteredChapters cwd now db ((n, sc) :: rest) bh name
          = ((processFilteredChapters cwd now
               (db.saveChapter (createChapterProcessingData cwd now bh name n sc))
               rest bh name).1,
             dispatchChapterToNextWorker
               (db.saveChapter (createChapterProcessingData cwd now bh name n sc))
               (createChapterProcessingData cwd now bh name n sc) bh ++
             (processFilteredChapters cwd now
               (db.saveChapter (createChapterProcessingData cwd now bh name n sc))
               rest bh name).2) := by
        rw [processFilteredChapters_cons, if_neg hcomp]
      set c := createChapterProcessingData cwd now bh name n sc with hc
      set db1 := db.saveChapter c with hdb1
      have hstat : c.status = Status.pending := rfl
      have hhash : c.chapter_hash = hashOfEntry (n, sc) := rfl
      have hmeta1 : db1.metadata = db.metadata := rfl
      have hcomp1 : ∀ h, isChapterAlreadyCompleted db1 h =
          isChapterAlreadyCompleted db h := by
        intro h
        apply isCompleted_saveChapter db c hstat
        rw [hhash]
        exact hcompf
      obtain ⟨ih1, ih2, ih3, ih4, ih5⟩ := ih db1
      simp only [heq]
      refine ⟨?_, ?_, ?_, ?_, ?_⟩
      · rw [ih1, hmeta1]
      · intro h
        rw [ih2 h, hcomp1 h]
      · intro h
        rcases ih3 h with heq3 | ⟨hf, rec, hrec, hsome⟩
        · rw [heq3, hdb1, saveChapter_chapters]
          by_cases he : h = c.chapter_hash
          · rw [if_pos he]
            right
            refine ⟨?_, c, hstat, rfl⟩
            rw [he, hhash]
            exact hcompf
          · rw [if_neg he]
            left
            rfl
        · right
          refine ⟨?_, rec, hrec, hsome⟩
          rw [← hcomp1 h]
          exact hf
      · rw [ih4]
        rw [dispatchChapterToNextWorker_eq, hhash]
        have hfil : rest.filter
            (fun e => ! isChapterAlreadyCompleted db1 (hashOfEntry e)) =
            rest.filter
            (fun e => ! isChapterAlreadyCompleted db (hashOfEntry e)) :=
          List.filter_congr (fun e _ => by rw [hcomp1])
        have hmap : (rest.filter
            (fun e => ! isChapterAlreadyCompleted db (hashOfEntry e))).map
            (fun e => dispatchFor db1 bh (hashOfEntry e)) =
            (rest.filter
            (fun e => ! isChapterAlreadyCompleted db (hashOfEntry e))).map
            (fun e => dispatchFor db bh (hashOfEntry e)) :=
          List.map_congr_left
            (fun e _ => dispatchFor_congr db db1 hmeta1 bh (hashOfEntry e))
        rw [hfil, hmap, dispatchFor_congr db db1 hmeta1 bh]
        simp [hcompf]
      · intro e he hfe
        rcases List.mem_cons.mp he with he' | hmem
        · subst he'
          rcases ih3 (hashOfEntry (n, sc)) with heq3 | ⟨_, rec, hrec, hsome⟩
          · refine ⟨c, ?_, hstat⟩
            rw [heq3, hdb1, saveChapter_chapters, if_pos hhash.symm]
          · exact ⟨rec, hsome, hrec⟩
        · apply ih5 e hmem
          rw [hcomp1]
          exact hfe

/-- C2: during Book-Discovery, the sends of `_process_filtered_chapters` are
exactly one routed dispatch per entry of the filtered range whose fingerprint
is not already stored COMPLETED (so a COMPLETED entry gets none, every other
entry exactly one); a COMPLETED entry's store slot is left untouched (not
saved again); every other entry ends up persisted with status PENDING. -/
theorem C2_discovery_idempotent_skip :
    ∀ (cwd now : String) (db : DB)
      (filtered : List (Nat × BookChapterLink)) (book_hash short_book_name : String),
    ((processFilteredChapters cwd now db filtered book_hash short_book_name).2 =
      (filtered.filter fun e =>
        ! isChapterAlreadyCompleted db (hashOfEntry e)).map
        (fun e => dispatchFor db book_hash (hashOfEntry e))) ∧
    (∀ e ∈ filtered,
      isChapterAlreadyCompleted db (hashOfEntry e) = true →
      (processFilteredChapters cwd now db filtered book_hash
          short_book_name).1.chapters (hashOfEntry e) =
        db.chapters (hashOfEntry e)) ∧
    (∀ e ∈ filtered,
      isChapterAlreadyCompleted db (hashOfEntry e) = false →
      ∃ rec, (processFilteredChapters cwd now db filtered book_hash
          short_book_name).1.chapters (hashOfEntry e) = some rec ∧
        rec.status = Status.pending) := by
  intro cwd now db filtered bh name
  obtain ⟨_, _, h3, h4, h5⟩ :=
    processFilteredChapters_spec cwd now bh name filtered db
  refine ⟨h4, ?_, h5⟩
  intro e he hc
  rcases h3 (hashOfEntry e) with heq | ⟨hf, _, _, _⟩
  · exact heq
  · rw [hc] at hf
    cases hf

/-- A chapter record stored as COMPLETED, for concrete instantiations. -/
def completedChapterRec : ChapterProcessingData :=
  ⟨"h", some 1, "bh", Status.completed, "t", "B", "b", "book",
   "p", "ci", "tf", "sf", "wf", "m3", "m4"⟩

/-- A store in which every chapter fingerprint is already COMPLETED. -/
def dbAllCompleted : DB :=
  { DB.empty with chapters := fun _ => some completedChapterRec }

/-- Concrete instantiation of `C2_discovery_idempotent_skip`: over a store
where the fingerprint is already COMPLETED a one-entry range produces no
dispatch and leaves the slot untouched; over the empty store the same range
ends with the chapter persisted PENDING. -/
theorem C2_discovery_idempotent_skip_witness :
    ((processFilteredChapters "/app" "2024-01-01T00:00:00" dbAllCompleted
        [(1, ⟨"B", "b"⟩)] "bh" "book").2 = []) ∧
    ((processFilteredChapters "/app" "2024-01-01T00:00:00" dbAllCompleted
        [(1, ⟨"B", "b"⟩)] "bh" "book").1.chapters (hashOfEntry (1, ⟨"B", "b"⟩)) =
      dbAllCompleted.chapters (hashOfEntry (1, ⟨"B", "b"⟩))) ∧
    (∃ rec, (processFilteredChapters "/app" "2024-01-01T00:00:00" DB.empty
        [(1, ⟨"B", "b"⟩)] "bh" "book").1.chapters (hashOfEntry (1, ⟨"B", "b"⟩)) =
        some rec ∧ rec.status = Status.pending) := by
  refine ⟨?_, ?_, ?_⟩
  · rw [(C2_discovery_idempotent_skip "/app" "2024-01-01T00:00:00" dbAllCompleted
      [(1, ⟨"B", "b"⟩)] "bh" "book").1]
    rfl
  · exact (C2_discovery_idempotent_skip "/app" "2024-01-01T00:00:00" dbAllCompleted
      [(1, ⟨"B", "b"⟩)] "bh" "book").2.1 (1, ⟨"B", "b"⟩) (by simp) rfl
  · exact (C2_discovery_idempotent_skip "/app" "2024-01-01T00:00:00" DB.empty
      [(1, ⟨"B", "b"⟩)] "bh" "book").2.2 (1, ⟨"B", "b"⟩) (by simp) rfl

/-- C4: `_dispatch_chapter_to_next_worker` sends the chapter to the
Chapter-Scrape queue (`chapter-queue`, task `process_chapter`) when a
Book-level Metadata record exists under the chapter's book fingerprint, and
to the Metadata-Enrichment queue (`metadata-queue`, task `process_metadata`)
otherwise; in each case exactly one task is sent. -/
theorem C4_routing_decision :
    ∀ (db : DB) (chapter : ChapterProcessingData) (book_hash : String),
      (db.metadataExists book_hash = true →
        dispatchChapterToNextWorker db chapter book_hash =
          [⟨"worker.tasks.process_chapter", chapter.chapter_hash,
            "chapter-queue", none⟩]) ∧
      (db.metadataExists book_hash = false →
        dispatchChapterToNextWorker db chapter book_hash =
          [⟨"worker.tasks.process_metadata", chapter.chapter_hash,
            "metadata-queue", none⟩]) ∧
      (dispatchChapterToNextWorker db chapter book_hash).length = 1 := by
  intro db c bh
  refine ⟨?_, ?_, ?_⟩
  · intro hm
    unfold dispatchChapterToNextWorker
    rw [if_pos hm]
  · intro hm
    unfold dispatchChapterToNextWorker
    rw [if_neg (by rw [hm]; simp)]
  · unfold dispatchChapterToNextWorker
    by_cases hm : db.metadataExists bh <;> simp [hm]

/-- A metadata record with every optional field absent. -/
def emptyMetadataRec : ScrapedMetadata :=
  ⟨none, none, none, none, none, none, none, none, none, none, none, none,
   none, none⟩

/-- A store holding a metadata record under every key. -/
def dbAllMetadata : DB :=
  { DB.empty with metadata := fun _ => some emptyMetadataRec }

/-- Concrete instantiation of `C4_routing_decision`: with metadata present the
chapter goes to `chapter-queue`, over the empty store to `metadata-queue`. -/
theorem C4_routing_decision_witness :
    dispatchChapterToNextWorker dbAllMetadata completedChapterRec "bh" =
      [⟨"worker.tasks.process_chapter", completedChapterRec.chapter_hash,
        "chapter-queue", none⟩] ∧
    dispatchChapterToNextWorker DB.empty completedChapterRec "bh" =
      [⟨"worker.tasks.process_metadata", completedChapterRec.chapter_hash,
        "metadata-queue", none⟩] :=
  ⟨(C4_routing_decision dbAllMetadata completedChapterRec "bh").1 rfl,
   (C4_routing_decision DB.empty completedChapterRec "bh").2.1 rfl⟩

/-! ## Stage handlers

Each Celery task body is embedded as a function of the store, the current
retry counter (`self.request.retries`) and its collaborator results, returning
the task outcome, the final store and the queue sends.  An uncaught
`self.retry(...)` raise is the `retryAfter` outcome; every other path is a
normal Python `return` (acknowledged by the broker, not retried). -/

/-- How a task invocation ends: a normal return of `v`, or a
`raise self.retry(..., countdown=c)`. -/
inductive Outcome (α : Type) where
  | returns (v : α)
  | retryAfter (countdown : Nat)
deriving DecidableEq, Repr

/-- Result of one handler invocation: outcome, final store, queue sends. -/
structure HandlerResult (α : Type) where
  outcome : Outcome α
  db : DB
  sends : List Dispatch

/-- The shared `except Exception` tail of the processing-stage handlers:
`if self.request.retries >= 5: return` else
`raise self.retry(exc=exc, countdown=60 * (2 ** self.request.retries))`. -/
def exceptRetry5 (retries : Nat) (db : DB) (sends : List Dispatch) :
    HandlerResult (Option Bool) :=
  if retries ≥ 5 then ⟨.returns none, db, sends⟩
  else ⟨.retryAfter (60 * 2 ^ retries), db, sends⟩

/-- `process_metadata` (`src/workers/metadata/tasks.py` lines 17-58).
`metaResult` is the value of `scrape_book_metadata(book.metadata_url)` (`None`
on scrape failure, after which `metadata.image` raises `AttributeError`);
`downloadOk` is whether `download_image` succeeds (it raises on HTTP error;
its `is False` walrus test never fires on success because the function
returns `True`). -/
def process_metadata (db : DB) (retries : Nat) (chapter_hash : String)
    (metaResult : Option ScrapedMetadata) (downloadOk : Bool) :
    HandlerResult (Option Bool) :=
  match db.chapters chapter_hash with
  | none => ⟨.returns (some false), db, []⟩
  | some chapter_data =>
    if db.metadataExists chapter_data.book_hash then
      ⟨.returns (some true), db,
       [⟨"worker.tasks.process_chapter", chapter_hash, "chapter-queue", none⟩]⟩
    else
      match db.books chapter_data.book_hash with
      | none => ⟨.returns (some false), db, []⟩
      | some _book =>
        match metaResult with
        | none => exceptRetry5 retries db []
        | some metadata =>
          if downloadOk then
            ⟨.returns (some true),
             db.saveMetadata metadata chapter_data.book_hash,
             [⟨"worker.tasks.process_chapter", chapter_hash, "chapter-queue", none⟩]⟩
          else
            exceptRetry5 retries db []

/-- `process_chapter` (`src/workers/chapter/tasks.py` lines 16-40).
`scrapeResult` is the value of `scrape_chapter_content(chapter_data.url)`.
When the chapter is found its status is set PROCESSING and saved before the
scrape; when the scrape yields `None` the `if result := ...` guard falls
through and the function returns `None` (a normal return). -/
def process_chapter (db : DB) (retries : Nat) (chapter_hash : String)
    (scrapeResult : Option ScrapedChapterContent) :
    HandlerResult (Option Bool) :=
  match db.chapters chapter_hash with
  | none => ⟨.returns none, db, []⟩
  | some chapter_data =>
    let chapter_data := { chapter_data with status := Status.processing }
    let db1 := db.saveChapter chapter_data
    match scrapeResult with
    | some result =>
      let result := { result with
        chapter_hash := some chapter_hash
        url := some chapter_data.url }
      let db2 := db1.saveContent result chapter_hash
      ⟨.returns (some true), db2,
       [⟨"worker.tasks.process_tts", chapter_hash, "tts-queue", none⟩]⟩
    | none => ⟨.returns none, db1, []⟩

/-- `process_tts` (`src/workers/tts/tasks.py` lines 9-36).  `ttsRaises` is
whether `generate_tts` (an external synthesis call) raises. -/
def process_tts (db : DB) (retries : Nat) (chapter_hash : String)
    (ttsRaises : Bool) : HandlerResult (Option Bool) :=
  match db.chapters chapter_hash with
  | none => ⟨.returns (some false), db, []⟩
  | some _chapter =>
    match db.contents chapter_hash with
    | none => ⟨.returns (some false), db, []⟩
    | some _scraped_content =>
      if ttsRaises then
        exceptRetry5 retries db []
      else
        ⟨.returns (some true), db,
         [⟨"worker.tasks.process_converter", chapter_hash, "converter-queue", none⟩]⟩

/-- `process_converter` (`src/workers/converter/tasks.py` lines 71-136).
`convertRaises` is whether the external audio loading/export raises. -/
def process_converter (db : DB) (retries : Nat) (chapter_hash : String)
    (convertRaises : Bool) : HandlerResult (Option Bool) :=
  match db.chapters chapter_hash with
  | none => ⟨.returns (some false), db, []⟩
  | some processing_data =>
    match db.contents chapter_hash with
    | none => ⟨.returns (some false), db, []⟩
    | some _scraped_content =>
      match db.metadata processing_data.book_hash with
      | none => ⟨.returns (some false), db, []⟩
      | some _metadata =>
        if convertRaises then
          exceptRetry5 retries db []
        else
          ⟨.returns (some true), db,
           [⟨"worker.tasks.process_completed", chapter_hash, "completed-queue", none⟩]⟩

/-- `process_completed` (`src/workers/completed/tasks.py` lines 6-29).  A
missing chapter raises `ValueError`, which the handler's own
`except Exception` turns into `self.retry` until `retries >= 5`. -/
def process_completed (db : DB) (retries : Nat) (chapter_hash : String) :
    HandlerResult (Option Bool) :=
  match db.chapters chapter_hash with
  | none => exceptRetry5 retries db []
  | some chapter_data =>
    let chapter_data := { chapter_data with status := Status.completed }
    let db1 := db.saveChapter chapter_data
    ⟨.returns (some true), db1,
     [⟨"worker.tasks.process_sync", chapter_hash, "sync-queue", some 300⟩]⟩

/-! ## Remote-Sync handler: `src/workers/sync/tasks.py` -/

/-- Result of the external `subprocess.run(rsync_command, ..., timeout=1800)`
call: an exit with a return code, or `subprocess.TimeoutExpired`. -/
inductive RsyncOutcome where
  | exit (code : Nat) (stdout stderr : String)
  | timeout
deriving DecidableEq, Repr

/-- Python value returned by `process_sync`: `False` (chapter absent), bare
`return` (`None`, retries exhausted), the
`{"status": "skipped", "reason": "duplicate_request", "book": ...}` dict, or
the `{"status": "success", "book": ..., "stdout": ..., "stderr": ...}` dict. -/
inductive SyncValue where
  | retFalse
  | retNone
  | skippedDup (book : String)
  | success (book stdout stderr : String)
deriving DecidableEq, Repr

/-- The `"status"` entry of a returned dict, when the return value is one. -/
def SyncValue.statusField : SyncValue → Option String
  | .skippedDup _ => some "skipped"
  | .success _ _ _ => some "success"
  | _ => none

/-- The `"reason"` entry of a returned dict, when present. -/
def SyncValue.reasonField : SyncValue → Option String
  | .skippedDup _ => some "duplicate_request"
  | _ => none

/-- The Redis key of the per-book dedup lock. -/
def lockKeyOf (book_name : String) : String := "rsync_lock:" ++ book_name

/-- `RSYNC_PENDING_KEY` (`src/workers/sync/tasks.py` line 9). -/
def rsyncPendingKey : String := "rsync_pending_books"

/-- `process_sync` (`src/workers/sync/tasks.py` lines 11-100).  The atomic
`set(lock_key, "1", ex=600, nx=True)` succeeds exactly when the key is
absent; the TTL only matters beyond a single execution and is not modelled.
The inner `finally` deletes the lock key on every exit of the transfer block
(success return, failed-exit raise, timeout raise); the outer `except` blocks
then remove the pending-set entry and either drop (`retries >= 3`) or
re-raise via `self.retry` (countdown `300 * 2**retries` for a failed exit,
flat `300` for a timeout). -/
def process_sync (db : DB) (retries : Nat) (chapter_hash : String)
    (rsync : RsyncOutcome) : HandlerResult SyncValue :=
  match db.chapters chapter_hash with
  | none => ⟨.returns .retFalse, db, []⟩
  | some chapter =>
    let lock_key := lockKeyOf chapter.book_name
    let lock_acquired := (db.strKeys lock_key).isNone
    if lock_acquired then
      let db1 := { db with strKeys := updFn db.strKeys lock_key "1" }
      let db2 := { db1 with
        sets := saddFn db1.sets rsyncPendingKey chapter.book_name }
      match rsync with
      | .exit code stdout stderr =>
        if code = 0 then
          -- success: srem pending, then the finally deletes the lock
          let db3 := { db2 with
            sets := sremFn db2.sets rsyncPendingKey chapter.book_name }
          let db4 := { db3 with strKeys := delFn db3.strKeys lock_key }
          ⟨.returns (.success chapter.book_name stdout stderr), db4, []⟩
        else
          -- raise Exception: finally deletes the lock, outer except srem
          let db3 := { db2 with strKeys := delFn db2.strKeys lock_key }
          let db4 := { db3 with
            sets := sremFn db3.sets rsyncPendingKey chapter.book_name }
          if retries ≥ 3 then ⟨.returns .retNone, db4, []⟩
          else ⟨.retryAfter (300 * 2 ^ retries), db4, []⟩
      | .timeout =>
          let db3 := { db2 with strKeys := delFn db2.strKeys lock_key }
          let db4 := { db3 with
            sets := sremFn db3.sets rsyncPendingKey chapter.book_name }
          if retries ≥ 3 then ⟨.returns .retNone, db4, []⟩
          else ⟨.retryAfter 300, db4, []⟩
    else
      ⟨.returns (.skippedDup chapter.book_name), db, []⟩

/-- C5 counterexample: the claim says every stage handler returns without
raising and triggers no retry when the referenced chapter is absent, but
`process_completed` on an absent chapter (empty store, first attempt) raises
`ValueError` into its retry wrapper and schedules a retry after 60 s — it does
not end in a normal return. -/
theorem C5_completed_not_found_counterexample :
    (process_completed DB.empty 0 "missing").outcome = Outcome.retryAfter 60 ∧
    ∀ v : Option Bool,
      (process_completed DB.empty 0 "missing").outcome ≠ Outcome.returns v := by
  constructor
  · rfl
  · intro v h
    exact Outcome.noConfusion h

/-- C5 (amended): when the referenced chapter is absent every handler leaves
the store untouched and dispatches nothing; `process_metadata`,
`process_chapter`, `process_tts`, `process_converter` and `process_sync`
return normally (no retry), while `process_completed` raises and is retried
with countdown `60·2^retries` until `retries ≥ 5`, after which the unit of
work is dropped by a bare return. -/
theorem C5_not_found_dropped_amended :
    ∀ (db : DB) (retries : Nat) (h : String) (m : Option ScrapedMetadata)
      (dl : Bool) (s : Option ScrapedChapterContent) (t c : Bool)
      (r : RsyncOutcome),
    db.chapters h = none →
    (process_metadata db retries h m dl =
      ⟨.returns (some false), db, []⟩) ∧
    (process_chapter db retries h s = ⟨.returns none, db, []⟩) ∧
    (process_tts db retries h t = ⟨.returns (some false), db, []⟩) ∧
    (process_converter db retries h c = ⟨.returns (some false), db, []⟩) ∧
    (process_sync db retries h r = ⟨.returns .retFalse, db, []⟩) ∧
    (retries < 5 →
      process_completed db retries h =
        ⟨.retryAfter (60 * 2 ^ retries), db, []⟩) ∧
    (5 ≤ retries →
      process_completed db retries h = ⟨.returns none, db, []⟩) := by
  intro db retries h m dl s t c r habs
  refine ⟨?_, ?_, ?_, ?_, ?_, ?_, ?_⟩
  · unfold process_metadata
    rw [habs]
  · unfold process_chapter
    rw [habs]
  · unfold process_tts
    rw [habs]
  · unfold process_converter
    rw [habs]
  · unfold process_sync
    rw [habs]
  · intro hlt
    unfold process_completed exceptRetry5
    rw [habs]
    simp only []
    rw [if_neg (by omega)]
  · intro hge
    unfold process_completed exceptRetry5
    rw [habs]
    simp only []
    rw [if_pos hge]

/-- Concrete instantiation of `C5_not_found_dropped_amended` over the empty
store at first attempt: the five early-return handlers return cleanly and
`process_completed` schedules a 60 s retry. -/
theorem C5_not_found_dropped_amended_witness :
    (process_chapter DB.empty 0 "missing" none =
      ⟨.returns none, DB.empty, []⟩) ∧
    (process_sync DB.empty 0 "missing" RsyncOutcome.timeout =
      ⟨.returns .retFalse, DB.empty, []⟩) ∧
    (process_completed DB.empty 0 "missing" =
      ⟨.retryAfter (60 * 2 ^ 0), DB.empty, []⟩) := by
  obtain ⟨h1, h2, h3, h4, h5, h6, h7⟩ :=
    C5_not_found_dropped_amended DB.empty 0 "missing" none true none true true
      RsyncOutcome.timeout rfl
  exact ⟨h2, h5, h6 (by omega)⟩

/-- C6 (as the code behaves): when the content scrape of an existing chapter
yields no content, `process_chapter` returns `None` normally — no retry is
signalled and nothing is dispatched, so the unit of work is silently dropped
as a success (the spec instead requires a retryable failure here). -/
theorem C6_scrape_no_content_silent_drop :
    ∀ (db : DB) (retries : Nat) (h : String)
      (chapter : ChapterProcessingData),
    db.chapters h = some chapter →
    (process_chapter db retries h none).outcome = Outcome.returns none ∧
    (process_chapter db retries h none).sends = [] := by
  intro db retries h chapter hch
  unfold process_chapter
  rw [hch]
  exact ⟨rfl, rfl⟩

/-- Concrete instantiation of `C6_scrape_no_content_silent_drop` at a store
holding the chapter: the handler ends in a normal `None` return with no
sends. -/
theorem C6_scrape_no_content_silent_drop_witness :
    (process_chapter dbAllCompleted 0 "h" none).outcome =
      Outcome.returns none ∧
    (process_chapter dbAllCompleted 0 "h" none).sends = [] :=
  C6_scrape_no_content_silent_drop dbAllCompleted 0 "h"
    completedChapterRec rfl

/-- C8: every `process_sync` execution that acquires the per-book lock (the
chapter exists and the lock key is absent at the atomic set) ends with the
lock key deleted — on transfer success, on non-zero rsync exit (whether the
retry is re-raised or the unit dropped), and on timeout alike. -/
theorem C8_lock_always_released :
    ∀ (db : DB) (retries : Nat) (h : String) (rsync : RsyncOutcome)
      (chapter : ChapterProcessingData),
    db.chapters h = some chapter →
    db.strKeys (lockKeyOf chapter.book_name) = none →
    (process_sync db retries h rsync).db.strKeys
      (lockKeyOf chapter.book_name) = none := by
  intro db retries h rsync chapter hch hlock
  unfold process_sync
  rw [hch]
  simp only [hlock, Option.isNone_none, if_true]
  cases rsync with
  | exit code stdout stderr =>
    by_cases hc : code = 0
    · simp [hc, delFn]
    · by_cases hr : retries ≥ 3 <;> simp [hc, hr, delFn]
  | timeout =>
    by_cases hr : retries ≥ 3 <;> simp [hr, delFn]

/-- Concrete instantiation of `C8_lock_always_released`: over a store holding
the chapter and no lock, the lock key is absent afterwards for a successful
transfer, a failed exit, and a timeout. -/
theorem C8_lock_always_released_witness :
    (process_sync dbAllCompleted 0 "h" (RsyncOutcome.exit 0 "" "")).db.strKeys
      (lockKeyOf completedChapterRec.book_name) = none ∧
    (process_sync dbAllCompleted 0 "h" (RsyncOutcome.exit 23 "" "e")).db.strKeys
      (lockKeyOf completedChapterRec.book_name) = none ∧
    (process_sync dbAllCompleted 0 "h" RsyncOutcome.timeout).db.strKeys
      (lockKeyOf completedChapterRec.book_name) = none :=
  ⟨C8_lock_always_released dbAllCompleted 0 "h" (RsyncOutcome.exit 0 "" "")
     completedChapterRec rfl rfl,
   C8_lock_always_released dbAllCompleted 0 "h" (RsyncOutcome.exit 23 "" "e")
     completedChapterRec rfl rfl,
   C8_lock_always_released dbAllCompleted 0 "h" RsyncOutcome.timeout
     completedChapterRec rfl rfl⟩

/-! ## `RedisDB.update` at the raw key level (`src/libs/db.py`) -/

/-- The raw Redis keyspace as `RedisDB` uses it: string values under string
keys, plus the `{model_type}:all` index sets. -/
structure Redis where
  kv : String → Option String
  setsKv : String → List String

/-- `_generate_key` (`src/libs/db.py` lines 24-26):
`f"{model_type}:{identifier}"`. -/
def generateKey (model_type identifier : String) : String :=
  model_type ++ ":" ++ identifier

/-- `RedisDB.update` (`src/libs/db.py` lines 82-99): compute the key; if it
does not exist return `False` without writing; otherwise overwrite it with
the serialized object and return `True`.  `serialized` stands for
`self._serialize(obj)` applied to the entity. -/
def RedisDB.update (r : Redis) (model_type identifier serialized : String) :
    Bool × Redis :=
  let key := generateKey model_type identifier
  if (r.kv key).isSome then
    (true, { r with kv := updFn r.kv key serialized })
  else
    (false, r)

/-- C10: `RedisDB.update` is update-only — when no record exists under the
key it returns `False` and leaves the store completely unchanged (it never
creates the record); when a record exists it overwrites exactly that key,
leaves every other key and the index sets unchanged, and returns `True`. -/
theorem C10_update_is_update_only :
    ∀ (r : Redis) (model_type identifier serialized : String),
    (r.kv (generateKey model_type identifier) = none →
      RedisDB.update r model_type identifier serialized = (false, r)) ∧
    (∀ old, r.kv (generateKey model_type identifier) = some old →
      (RedisDB.update r model_type identifier serialized).1 = true ∧
      (RedisDB.update r model_type identifier serialized).2.kv
          (generateKey model_type identifier) = some serialized ∧
      (∀ k, k ≠ generateKey model_type identifier →
        (RedisDB.update r model_type identifier serialized).2.kv k = r.kv k) ∧
      (RedisDB.update r model_type identifier serialized).2.setsKv =
        r.setsKv) := by
  intro r mt id data
  constructor
  · intro habs
    unfold RedisDB.update
    dsimp only
    rw [habs]
    rfl
  · intro old hsome
    unfold RedisDB.update
    dsimp only
    rw [hsome]
    refine ⟨rfl, by simp [updFn], ?_, rfl⟩
    intro k hk
    simp [updFn, hk]

/-- The empty raw keyspace. -/
def emptyRedis : Redis := ⟨fun _ => none, fun _ => []⟩

/-- A keyspace holding one chapter record. -/
def redisWithChapter : Redis :=
  ⟨fun k => if k = "chapterprocessingdata:x" then some "old" else none,
   fun _ => []⟩

/-- Concrete instantiation of `C10_update_is_update_only`: updating a missing
key returns `False` with the store unchanged; updating an existing key
returns `True` and overwrites it. -/
theorem C10_update_is_update_only_witness :
    RedisDB.update emptyRedis "chapterprocessingdata" "x" "new" =
      (false, emptyRedis) ∧
    (RedisDB.update redisWithChapter "chapterprocessingdata" "x" "new").1 =
      true ∧
    (RedisDB.update redisWithChapter "chapterprocessingdata" "x" "new").2.kv
      (generateKey "chapterprocessingdata" "x") = some "new" :=
  ⟨(C10_update_is_update_only emptyRedis "chapterprocessingdata" "x" "new").1
     rfl,
   ((C10_update_is_update_only redisWithChapter "chapterprocessingdata" "x"
       "new").2 "old" (by decide)).1,
   ((C10_update_is_update_only redisWithChapter "chapterprocessingdata" "x"
       "new").2 "old" (by decide)).2.1⟩

/-! ## Retry/backoff discipline

The stage handlers all follow the same manual pattern
(`src/workers/chapter/tasks.py` lines 35-40, `src/workers/sync/tasks.py`
lines 84-100): `except` catches the failure; if
`self.request.retries >= max_retries` the handler returns (dropping the unit
of work), otherwise it calls `raise self.retry(exc=exc, countdown=...)`,
which redelivers the task with the retry counter incremented.  The explicit
`countdown` is used as passed; the Celery config's
`task_retry_backoff_max = 600` (`src/libs/celery.py`) only caps
automatically computed backoff, not these explicit countdowns. -/

/-- `task_retry_backoff_max` (`src/libs/celery.py`): 600 s. -/
def task_retry_backoff_max : Nat := 600

/-- Run of a handler whose body fails on every attempt under the manual retry
pattern, starting at retry counter `r`: each attempt executes the body once;
with `maxRetries ≤ r` the except block drops the unit, otherwise it schedules
a redelivery after `delayOf r`.  Returns (body executions, scheduled delays
in order). -/
def failLoop (maxRetries : Nat) (delayOf : Nat → Nat) (r : Nat) :
    Nat × List Nat :=
  if maxRetries ≤ r then (1, [])
  else
    let rest := failLoop maxRetries delayOf (r + 1)
    (rest.1 + 1, delayOf r :: rest.2)
termination_by maxRetries - r

/-- Countdown of the processing stages:
`60 * (2 ** self.request.retries)`. -/
def processingDelay (r : Nat) : Nat := 60 * 2 ^ r

/-- Countdown of the remote-sync generic failure path:
`300 * (2 ** self.request.retries)`. -/
def syncDelay (r : Nat) : Nat := 300 * 2 ^ r

/-- Countdown of the remote-sync timeout path: flat `300`. -/
def syncTimeoutDelay (_r : Nat) : Nat := 300

/-- Closed form of `failLoop`: `m - r + 1` executions and the delays
`delayOf r, …, delayOf (m-1)`. -/
theorem failLoop_spec (d : Nat → Nat) :
    ∀ (n m r : Nat), m - r = n →
    (failLoop m d r).1 = (m - r) + 1 ∧
    (failLoop m d r).2 = (List.range' r (m - r)).map d := by
  intro n
  induction n with
  | zero =>
    intro m r hmr
    unfold failLoop
    rw [if_pos (by omega)]
    simp [hmr]
  | succ k ih =>
    intro m r hmr
    unfold failLoop
    rw [if_neg (by omega)]
    obtain ⟨ih1, ih2⟩ := ih m (r + 1) (by omega)
    constructor
    · simp only [ih1]
      omega
    · simp only [ih2]
      rw [hmr, show m - (r + 1) = k by omega, List.range'_succ, List.map_cons]

/-- The remote-sync handler's own retry choices: with the chapter present and
the lock free, a failed rsync exit before the ceiling re-raises with countdown
`300·2^retries`, a timeout re-raises with flat `300`, and at the ceiling the
unit of work is dropped by a bare return. -/
theorem process_sync_retry_countdowns :
    ∀ (db : DB) (r : Nat) (h : String) (chapter : ChapterProcessingData)
      (code : Nat) (out err : String),
    db.chapters h = some chapter →
    db.strKeys (lockKeyOf chapter.book_name) = none →
    (code ≠ 0 → r < 3 →
      (process_sync db r h (.exit code out err)).outcome =
        Outcome.retryAfter (syncDelay r)) ∧
    (r < 3 →
      (process_sync db r h .timeout).outcome =
        Outcome.retryAfter (syncTimeoutDelay r)) ∧
    (3 ≤ r →
      (process_sync db r h .timeout).outcome =
        Outcome.returns SyncValue.retNone) := by
  intro db r h chapter code out err hch hlock
  refine ⟨?_, ?_, ?_⟩
  · intro hc hr
    unfold process_sync
    rw [hch]
    simp only [hlock, Option.isNone_none, if_true]
    rw [if_neg hc, if_neg (by omega)]
    rfl
  · intro hr
    unfold process_sync
    rw [hch]
    simp only [hlock, Option.isNone_none, if_true]
    rw [if_neg (by omega)]
    rfl
  · intro hr
    unfold process_sync
    rw [hch]
    simp only [hlock, Option.isNone_none, if_true]
    rw [if_pos hr]

/-- C7 (amended): an always-failing processing-stage handler executes its body
exactly `5 + 1` times and an always-failing remote-sync handler exactly
`3 + 1` times before the unit of work is dropped; the scheduled delays are
`60·2^attempt` for processing stages and `300·2^attempt` for remote-sync
generic failures — the remote-sync timeout path instead schedules a flat
300 s — and each delay sequence is non-decreasing; no maximum-delay cap is
applied to these explicitly passed countdowns.  (The sync countdowns are the
ones the embedded `process_sync` itself raises.) -/
theorem C7_retry_discipline_amended :
    ((failLoop 5 processingDelay 0).1 = 5 + 1) ∧
    ((failLoop 3 syncDelay 0).1 = 3 + 1) ∧
    ((failLoop 3 syncTimeoutDelay 0).1 = 3 + 1) ∧
    ((failLoop 5 processingDelay 0).2 =
      [60 * 2 ^ 0, 60 * 2 ^ 1, 60 * 2 ^ 2, 60 * 2 ^ 3, 60 * 2 ^ 4]) ∧
    ((failLoop 3 syncDelay 0).2 =
      [300 * 2 ^ 0, 300 * 2 ^ 1, 300 * 2 ^ 2]) ∧
    ((failLoop 3 syncTimeoutDelay 0).2 = [300, 300, 300]) ∧
    (∀ i j, i ≤ j → processingDelay i ≤ processingDelay j) ∧
    (∀ i j, i ≤ j → syncDelay i ≤ syncDelay j) ∧
    (∀ i j, i ≤ j → syncTimeoutDelay i ≤ syncTimeoutDelay j) ∧
    (∀ (db : DB) (r : Nat) (h : String) (chapter : ChapterProcessingData),
      db.chapters h = some chapter →
      db.strKeys (lockKeyOf chapter.book_name) = none →
      r < 3 →
      (process_sync db r h (.exit 1 "" "")).outcome =
        Outcome.retryAfter (syncDelay r) ∧
      (process_sync db r h .timeout).outcome =
        Outcome.retryAfter (syncTimeoutDelay r)) := by
  have hmono : ∀ (b i j : Nat), i ≤ j → b * 2 ^ i ≤ b * 2 ^ j := by
    intro b i j hij
    exact Nat.mul_le_mul_left b (Nat.pow_le_pow_right (by omega) hij)
  refine ⟨(failLoop_spec processingDelay 5 5 0 rfl).1,
          (failLoop_spec syncDelay 3 3 0 rfl).1,
          (failLoop_spec syncTimeoutDelay 3 3 0 rfl).1,
          ?_, ?_, ?_,
          fun i j hij => hmono 60 i j hij,
          fun i j hij => hmono 300 i j hij,
          fun i j hij => le_refl _,
          ?_⟩
  · rw [(failLoop_spec processingDelay 5 5 0 rfl).2]
    rfl
  · rw [(failLoop_spec syncDelay 3 3 0 rfl).2]
    rfl
  · rw [(failLoop_spec syncTimeoutDelay 3 3 0 rfl).2]
    rfl
  · intro db r h chapter hch hlock hr
    obtain ⟨h1, h2, _⟩ :=
      process_sync_retry_countdowns db r h chapter 1 "" "" hch hlock
    exact ⟨h1 (by omega) hr, h2 hr⟩

/-- C7 counterexample: the claim's delay law fails on the code in two places.
The processing-stage countdown at the fifth failure is `60·2^4 = 960` s,
strictly above the configured maximum delay `task_retry_backoff_max = 600`
(explicit countdowns are not capped).  And the remote-sync timeout path
schedules 300 s at attempt 1 where `base·2^attempt` would be 600. -/
theorem C7_retry_discipline_counterexample :
    ((failLoop 5 processingDelay 0).2.getD 4 0 = 960 ∧
     task_retry_backoff_max = 600 ∧
     ¬ (failLoop 5 processingDelay 0).2.getD 4 0 ≤ task_retry_backoff_max) ∧
    ((failLoop 3 syncTimeoutDelay 0).2.getD 1 0 = 300 ∧
     (failLoop 3 syncTimeoutDelay 0).2.getD 1 0 ≠ 300 * 2 ^ 1) := by
  have h5 := (failLoop_spec processingDelay 5 5 0 rfl).2
  have h3 := (failLoop_spec syncTimeoutDelay 3 3 0 rfl).2
  rw [show (5 : Nat) - 0 = 5 from rfl] at h5
  rw [show (3 : Nat) - 0 = 3 from rfl] at h3
  refine ⟨⟨?_, rfl, ?_⟩, ?_, ?_⟩
  · rw [h5]
    rfl
  · rw [h5]
    decide
  · rw [h3]
    rfl
  · rw [h3]
    decide

/-- Concrete instantiation of `C7_retry_discipline_amended`: the monotonicity
components at `1 ≤ 2` and the sync countdowns over a one-chapter store at the
first attempt. -/
theorem C7_retry_discipline_amended_witness :
    processingDelay 1 ≤ processingDelay 2 ∧
    syncDelay 1 ≤ syncDelay 2 ∧
    (process_sync dbAllCompleted 0 "h" (.exit 1 "" "")).outcome =
      Outcome.retryAfter (syncDelay 0) ∧
    (process_sync dbAllCompleted 0 "h" .timeout).outcome =
      Outcome.retryAfter (syncTimeoutDelay 0) := by
  obtain ⟨-, -, -, -, -, -, hp, hs, -, hsync⟩ := C7_retry_discipline_amended
  obtain ⟨h1, h2⟩ :=
    hsync dbAllCompleted 0 "h" completedChapterRec rfl rfl (by omega)
  exact ⟨hp 1 2 (by omega), hs 1 2 (by omega), h1, h2⟩

/-! ## Two concurrent Remote-Sync executions (C1)

Two `process_sync` executions for chapters of the same book contend on the
single lock key `rsync_lock:{book_name}`.  Each execution is decomposed at
its atomic operations on that shared key, exactly following
`src/workers/sync/tasks.py`:
* `tryLock` — the atomic `set(lock_key, "1", ex=600, nx=True)`; on failure the
  handler returns the skipped/duplicate_request dict immediately;
* `transfer` — the `subprocess.run(rsync_command, ...)` invocation ("reaching
  the transfer invocation");
* `release` — the guaranteed `finally` delete of the lock key, fused with the
  handler's own return/except tail (`success` dict on exit 0, drop or
  `self.retry` otherwise), since none of that tail touches the shared lock.
The pending-set bookkeeping (`sadd`/`srem rsync_pending_books`) does not
influence control flow or the lock and is omitted here; the single-execution
embedding `process_sync` above retains it.  An interleaving is a schedule:
the list of which execution performs its next atomic operation. -/

/-- Program counter of one Remote-Sync execution. -/
inductive SyncPc where
  | tryLock
  | transfer
  | release
  | done
deriving DecidableEq, Repr

/-- One Remote-Sync execution: program counter, whether its set-if-absent
succeeded, whether it has invoked the transfer, its Python return value (once
finished; `none` while running or when it ended in a retry raise), and
whether it ended by raising `self.retry`. -/
structure SyncProc where
  pc : SyncPc
  won : Bool
  transferred : Bool
  result : Option SyncValue
  retried : Bool
deriving DecidableEq, Repr

/-- Whether the execution is inside the lock-protected critical section
(between a successful set-if-absent and the `finally` delete). -/
def SyncProc.inCS (p : SyncProc) : Bool :=
  match p.pc with
  | .transfer => true
  | .release => true
  | _ => false

/-- The shared state: whether the `rsync_lock:{book}` key is present, and the
two executions. -/
structure SyncSys where
  lock : Bool
  procA : SyncProc
  procB : SyncProc
deriving DecidableEq, Repr

/-- An execution that has not run yet. -/
def initProc : SyncProc := ⟨.tryLock, false, false, none, false⟩

/-- Initial state: lock absent, both executions pending. -/
def initSys : SyncSys := ⟨false, initProc, initProc⟩

/-- Fixed data of one interleaving scenario: the shared book display name,
and each execution's rsync outcome and retry counter. -/
structure SyncCtx where
  book : String
  rsA : RsyncOutcome
  rsB : RsyncOutcome
  rA : Nat
  rB : Nat

/-- One atomic step of one execution against the shared lock, mirroring
`process_sync`: a failed set-if-absent returns the skipped dict at once; a
successful one enters the critical section; the transfer step invokes rsync;
the release step runs the `finally` delete and the handler's tail (success
dict on exit 0, drop at the retry ceiling, `self.retry` raise otherwise).
Returns the new lock state and execution state. -/
def stepProc (lock : Bool) (p : SyncProc) (book : String)
    (rsync : RsyncOutcome) (retries : Nat) : Bool × SyncProc :=
  match p.pc with
  | .tryLock =>
    if lock then
      (lock, { p with
               pc := .done
               result := some (.skippedDup book)
               retried := false })
    else
      (true, { p with pc := .transfer, won := true })
  | .transfer =>
    (lock, { p with pc := .release, transferred := true })
  | .release =>
    match rsync with
    | .exit code stdout stderr =>
      if code = 0 then
        (false, { p with
                  pc := .done
                  result := some (.success book stdout stderr)
                  retried := false })
      else if retries ≥ 3 then
        (false, { p with
                  pc := .done
                  result := some .retNone
                  retried := false })
      else
        (false, { p with pc := .done, result := none, retried := true })
    | .timeout =>
      if retries ≥ 3 then
        (false, { p with
                  pc := .done
                  result := some .retNone
                  retried := false })
      else
        (false, { p with pc := .done, result := none, retried := true })
  | .done => (lock, p)

/-- One step of the two-execution system: `who = true` steps execution A,
`who = false` steps execution B. -/
def stepSys (ctx : SyncCtx) (s : SyncSys) (who : Bool) : SyncSys :=
  if who then
    let r := stepProc s.lock s.procA ctx.book ctx.rsA ctx.rA
    { s with lock := r.1, procA := r.2 }
  else
    let r := stepProc s.lock s.procB ctx.book ctx.rsB ctx.rB
    { s with lock := r.1, procB := r.2 }

/-- Run a schedule from the initial state. -/
def runSys (ctx : SyncCtx) (sched : List Bool) : SyncSys :=
  sched.foldl (stepSys ctx) initSys

/-- Per-execution invariant: only a winner is in the critical section; while
at `tryLock` nothing has happened yet; the transfer happens exactly on
entering `release`; and a finished non-winner returned the skipped dict
without transferring and without retrying, while a finished winner did
transfer. -/
def procInv (book : String) (p : SyncProc) : Prop :=
  (p.inCS = true → p.won = true) ∧
  (p.pc = SyncPc.tryLock →
    p.won = false ∧ p.transferred = false ∧ p.result = none ∧
    p.retried = false) ∧
  (p.pc = SyncPc.transfer → p.transferred = false) ∧
  (p.pc = SyncPc.release → p.transferred = true) ∧
  (p.pc = SyncPc.done →
    (p.won = true → p.transferred = true) ∧
    (p.won = false →
      p.transferred = false ∧ p.result = some (SyncValue.skippedDup book) ∧
      p.retried = false))

/-- System invariant: the lock key is present exactly when one of the two
executions is in its critical section, the critical sections are mutually
exclusive, and both executions satisfy their local invariant. -/
def sysInv (book : String) (s : SyncSys) : Prop :=
  s.lock = (s.procA.inCS || s.procB.inCS) ∧
  ¬(s.procA.inCS = true ∧ s.procB.inCS = true) ∧
  procInv book s.procA ∧ procInv book s.procB

theorem procInv_init (book : String) : procInv book initProc := by
  refine ⟨?_, ?_, ?_, ?_, ?_⟩ <;> simp [initProc, SyncProc.inCS]

theorem sysInv_init (book : String) : sysInv book initSys :=
  ⟨rfl, by simp [initSys, initProc, SyncProc.inCS],
   procInv_init book, procInv_init book⟩

/-- The release step always frees the lock, finishes the execution and keeps
its `won`/`transferred` flags. -/
theorem stepProc_release_shape (lock : Bool) (p : SyncProc) (book : String)
    (rsync : RsyncOutcome) (retries : Nat) (hpc : p.pc = SyncPc.release) :
    (stepProc lock p book rsync retries).1 = false ∧
    (stepProc lock p book rsync retries).2.pc = SyncPc.done ∧
    (stepProc lock p book rsync retries).2.won = p.won ∧
    (stepProc lock p book rsync retries).2.transferred = p.transferred := by
  unfold stepProc
  rw [hpc]
  cases rsync with
  | exit code stdout stderr =>
    by_cases hc : code = 0
    · simp [hc]
    · by_cases hr : retries ≥ 3 <;> simp [hc, hr]
  | timeout =>
    by_cases hr : retries ≥ 3 <;> simp [hr]

/-- The step of one execution preserves the joint invariant against the other
execution. -/
theorem step_pair (book : String) (rsync : RsyncOutcome) (retries : Nat)
    (lock : Bool) (p q : SyncProc)
    (hl : lock = (p.inCS || q.inCS))
    (hmx : ¬(p.inCS = true ∧ q.inCS = true))
    (hp : procInv book p) (hq : procInv book q) :
    (stepProc lock p book rsync retries).1 =
      ((stepProc lock p book rsync retries).2.inCS || q.inCS) ∧
    ¬((stepProc lock p book rsync retries).2.inCS = true ∧ q.inCS = true) ∧
    procInv book (stepProc lock p book rsync retries).2 ∧
    procInv book q := by
  obtain ⟨hp1, hp2, hp3, hp4, hp5⟩ := hp
  cases hpc : p.pc with
  | tryLock =>
    obtain ⟨hw, ht, hres, hret⟩ := hp2 hpc
    have hpcs : p.inCS = false := by simp [SyncProc.inCS, hpc]
    rw [hpcs, Bool.false_or] at hl
    by_cases hlk : lock
    · -- loser: finishes skipped
      have hstep : stepProc lock p book rsync retries =
          (lock, { p with
                   pc := .done
                   result := some (.skippedDup book)
                   retried := false }) := by
        unfold stepProc
        rw [hpc, if_pos hlk]
      rw [hstep]
      refine ⟨?_, ?_, ?_, hq⟩
      · simp [SyncProc.inCS, hl]
      · simp [SyncProc.inCS]
      · refine ⟨?_, ?_, ?_, ?_, ?_⟩ <;> intro hx <;>
          simp_all [SyncProc.inCS]
    · -- winner: enters the critical section
      have hlkf : lock = false := by simpa using hlk
      have hstep : stepProc lock p book rsync retries =
          (true, { p with pc := .transfer, won := true }) := by
        unfold stepProc
        rw [hpc, if_neg hlk]
      have hqcs : q.inCS = false := by rw [hlkf] at hl; exact hl.symm
      rw [hstep]
      refine ⟨?_, ?_, ?_, hq⟩
      · simp [SyncProc.inCS, hqcs]
      · intro hx
        have hx2 := hx.2
        rw [hqcs] at hx2
        cases hx2
      · refine ⟨?_, ?_, ?_, ?_, ?_⟩ <;> intro hx <;>
          simp_all [SyncProc.inCS]
  | transfer =>
    have hpcs : p.inCS = true := by simp [SyncProc.inCS, hpc]
    have hw : p.won = true := hp1 hpcs
    have ht : p.transferred = false := hp3 hpc
    have hqcs : q.inCS = false := by
      by_contra hqc
      exact hmx ⟨hpcs, by simpa using hqc⟩
    have hlk : lock = true := by rw [hl, hpcs, hqcs]; rfl
    have hstep : stepProc lock p book rsync retries =
        (lock, { p with pc := .release, transferred := true }) := by
      unfold stepProc
      rw [hpc]
    rw [hstep]
    refine ⟨?_, ?_, ?_, hq⟩
    · simp [SyncProc.inCS, hqcs, hlk]
    · intro hx
      have hx2 := hx.2
      rw [hqcs] at hx2
      cases hx2
    · refine ⟨?_, ?_, ?_, ?_, ?_⟩ <;> intro hx <;>
        simp_all [SyncProc.inCS]
  | release =>
    have hpcs : p.inCS = true := by simp [SyncProc.inCS, hpc]
    have hw : p.won = true := hp1 hpcs
    have ht : p.transferred = true := hp4 hpc
    have hqcs : q.inCS = false := by
      by_contra hqc
      exact hmx ⟨hpcs, by simpa using hqc⟩
    obtain ⟨hs1, hs2, hs3, hs4⟩ :=
      stepProc_release_shape lock p book rsync retries hpc
    refine ⟨?_, ?_, ?_, hq⟩
    · rw [hs1]
      have : (stepProc lock p book rsync retries).2.inCS = false := by
        simp [SyncProc.inCS, hs2]
      rw [this, hqcs]
      rfl
    · intro hx
      have : (stepProc lock p book rsync retries).2.inCS = false := by
        simp [SyncProc.inCS, hs2]
      rw [this] at hx
      exact absurd hx.1 (by simp)
    · refine ⟨?_, ?_, ?_, ?_, ?_⟩
      · intro hx
        simp [SyncProc.inCS, hs2] at hx
      · intro hx
        rw [hs2] at hx
        cases hx
      · intro hx
        rw [hs2] at hx
        cases hx
      · intro hx
        rw [hs2] at hx
        cases hx
      · intro _
        constructor
        · intro _
          rw [hs4, ht]
        · intro hwf
          rw [hs3, hw] at hwf
          cases hwf
  | done =>
    have hstep : stepProc lock p book rsync retries = (lock, p) := by
      unfold stepProc
      rw [hpc]
    rw [hstep]
    exact ⟨hl, hmx, ⟨hp1, hp2, hp3, hp4, hp5⟩, hq⟩

/-- `stepSys` preserves the system invariant. -/
theorem sysInv_step (ctx : SyncCtx) (s : SyncSys)
    (hinv : sysInv ctx.book s) (who : Bool) :
    sysInv ctx.book (stepSys ctx s who) := by
  obtain ⟨hl, hmx, hA, hB⟩ := hinv
  cases who with
  | true =>
    obtain ⟨h1, h2, h3, h4⟩ :=
      step_pair ctx.book ctx.rsA ctx.rA s.lock s.procA s.procB hl hmx hA hB
    exact ⟨h1, h2, h3, h4⟩
  | false =>
    obtain ⟨h1, h2, h3, h4⟩ :=
      step_pair ctx.book ctx.rsB ctx.rB s.lock s.procB s.procA
        (by rw [hl, Bool.or_comm]) (fun hx => hmx ⟨hx.2, hx.1⟩) hB hA
    refine ⟨?_, ?_, h4, h3⟩
    · show (stepProc s.lock s.procB ctx.book ctx.rsB ctx.rB).1 = _
      rw [h1, Bool.or_comm]
      rfl
    · intro hx
      exact h2 ⟨hx.2, hx.1⟩

/-- Every state reached from a state satisfying the invariant satisfies it. -/
theorem sysInv_foldl (ctx : SyncCtx) :
    ∀ (sched : List Bool) (s : SyncSys), sysInv ctx.book s →
    sysInv ctx.book (sched.foldl (stepSys ctx) s) := by
  intro sched
  induction sched with
  | nil => intro s hs; exact hs
  | cons w rest ih =>
    intro s hs
    exact ih (stepSys ctx s w) (sysInv_step ctx s hs w)

/-- Every reachable state of a run satisfies the invariant. -/
theorem sysInv_run (ctx : SyncCtx) (sched : List Bool) :
    sysInv ctx.book (runSys ctx sched) :=
  sysInv_foldl ctx sched initSys (sysInv_init ctx.book)

/-- Steps never modify a finished execution A. -/
theorem stepSys_done_A (ctx : SyncCtx) (s : SyncSys) (who : Bool)
    (h : s.procA.pc = SyncPc.done) : (stepSys ctx s who).procA = s.procA := by
  cases who with
  | true =>
    show (stepProc s.lock s.procA ctx.book ctx.rsA ctx.rA).2 = s.procA
    unfold stepProc
    rw [h]
  | false => rfl

/-- Steps never modify a finished execution B. -/
theorem stepSys_done_B (ctx : SyncCtx) (s : SyncSys) (who : Bool)
    (h : s.procB.pc = SyncPc.done) : (stepSys ctx s who).procB = s.procB := by
  cases who with
  | true => rfl
  | false =>
    show (stepProc s.lock s.procB ctx.book ctx.rsB ctx.rB).2 = s.procB
    unfold stepProc
    rw [h]

/-- A step never revokes execution A's lock win. -/
theorem stepSys_won_A (ctx : SyncCtx) (s : SyncSys) (who : Bool)
    (h : s.procA.won = true) : (stepSys ctx s who).procA.won = true := by
  cases who with
  | false => exact h
  | true =>
    show (stepProc s.lock s.procA ctx.book ctx.rsA ctx.rA).2.won = true
    cases hpc : s.procA.pc with
    | tryLock =>
      unfold stepProc
      rw [hpc]
      by_cases hl : s.lock = true
      · rw [if_pos hl]
        exact h
      · rw [if_neg hl]
    | transfer =>
      unfold stepProc
      rw [hpc]
      exact h
    | release =>
      rw [(stepProc_release_shape s.lock s.procA ctx.book ctx.rsA ctx.rA
        hpc).2.2.1]
      exact h
    | done =>
      unfold stepProc
      rw [hpc]
      exact h

/-- A step never revokes execution B's lock win. -/
theorem stepSys_won_B (ctx : SyncCtx) (s : SyncSys) (who : Bool)
    (h : s.procB.won = true) : (stepSys ctx s who).procB.won = true := by
  cases who with
  | true => exact h
  | false =>
    show (stepProc s.lock s.procB ctx.book ctx.rsB ctx.rB).2.won = true
    cases hpc : s.procB.pc with
    | tryLock =>
      unfold stepProc
      rw [hpc]
      by_cases hl : s.lock = true
      · rw [if_pos hl]
        exact h
      · rw [if_neg hl]
    | transfer =>
      unfold stepProc
      rw [hpc]
      exact h
    | release =>
      rw [(stepProc_release_shape s.lock s.procB ctx.book ctx.rsB ctx.rB
        hpc).2.2.1]
      exact h
    | done =>
      unfold stepProc
      rw [hpc]
      exact h

/-- Once finished, execution A's record survives any further schedule. -/
theorem foldl_done_A (ctx : SyncCtx) :
    ∀ (l : List Bool) (s : SyncSys), s.procA.pc = SyncPc.done →
    (l.foldl (stepSys ctx) s).procA = s.procA := by
  intro l
  induction l with
  | nil => intro s _; rfl
  | cons w rest ih =>
    intro s hs
    have hstep := stepSys_done_A ctx s w hs
    rw [List.foldl_cons, ih (stepSys ctx s w) (by rw [hstep]; exact hs), hstep]

/-- Once finished, execution B's record survives any further schedule. -/
theorem foldl_done_B (ctx : SyncCtx) :
    ∀ (l : List Bool) (s : SyncSys), s.procB.pc = SyncPc.done →
    (l.foldl (stepSys ctx) s).procB = s.procB := by
  intro l
  induction l with
  | nil => intro s _; rfl
  | cons w rest ih =>
    intro s hs
    have hstep := stepSys_done_B ctx s w hs
    rw [List.foldl_cons, ih (stepSys ctx s w) (by rw [hstep]; exact hs), hstep]

/-- A's lock win survives any further schedule. -/
theorem foldl_won_A (ctx : SyncCtx) :
    ∀ (l : List Bool) (s : SyncSys), s.procA.won = true →
    (l.foldl (stepSys ctx) s).procA.won = true := by
  intro l
  induction l with
  | nil => intro s hs; exact hs
  | cons w rest ih =>
    intro s hs
    exact ih (stepSys ctx s w) (stepSys_won_A ctx s w hs)

/-- B's lock win survives any further schedule. -/
theorem foldl_won_B (ctx : SyncCtx) :
    ∀ (l : List Bool) (s : SyncSys), s.procB.won = true →
    (l.foldl (stepSys ctx) s).procB.won = true := by
  intro l
  induction l with
  | nil => intro s hs; exact hs
  | cons w rest ih =>
    intro s hs
    exact ih (stepSys ctx s w) (stepSys_won_B ctx s w hs)

theorem runSys_append (ctx : SyncCtx) (l1 l2 : List Bool) :
    runSys ctx (l1 ++ l2) = l2.foldl (stepSys ctx) (runSys ctx l1) :=
  List.foldl_append _ _ _ _

theorem runSys_take_succ (ctx : SyncCtx) (sched : List Bool) (k : Nat)
    (hk : k < sched.length) :
    runSys ctx (sched.take (k + 1)) =
      stepSys ctx (runSys ctx (sched.take k)) (sched.getD k true) := by
  have h1 : sched.take (k + 1) = sched.take k ++ [sched[k]] := by
    rw [List.take_succ, List.getElem?_eq_getElem hk]
    rfl
  rw [h1, runSys_append, List.getD_eq_getElem sched true hk]
  rfl

/-- Both executions have finished. -/
def bothDone (s : SyncSys) : Prop :=
  s.procA.pc = SyncPc.done ∧ s.procB.pc = SyncPc.done

/-- C1: for two Remote-Sync executions for the same book name, (i) at no
reachable point of any interleaving are both inside the lock-protected
transfer section, and (ii)/(iii) whenever one execution's atomic set-if-absent
runs while the other holds the lock (the overlap the dedup lock guards
against) and both executions eventually finish, exactly one of them reaches
the transfer invocation: the lock loser finishes with the
`{"status": "skipped", "reason": "duplicate_request"}` dict, without
transferring and without being retried (its outcome is a normal return, not a
failure), while the lock winner is the one that performed the transfer. -/
theorem C1_sync_lock_exclusivity :
    ∀ (ctx : SyncCtx) (sched : List Bool),
    (¬((runSys ctx sched).procA.inCS = true ∧
       (runSys ctx sched).procB.inCS = true)) ∧
    (∀ k, k < sched.length →
      sched.getD k true = true →
      (runSys ctx (sched.take k)).procA.pc = SyncPc.tryLock →
      (runSys ctx (sched.take k)).procB.inCS = true →
      bothDone (runSys ctx sched) →
      (runSys ctx sched).procA.result =
        some (SyncValue.skippedDup ctx.book) ∧
      (runSys ctx sched).procA.retried = false ∧
      (runSys ctx sched).procA.transferred = false ∧
      (runSys ctx sched).procB.transferred = true) ∧
    (∀ k, k < sched.length →
      sched.getD k true = false →
      (runSys ctx (sched.take k)).procB.pc = SyncPc.tryLock →
      (runSys ctx (sched.take k)).procA.inCS = true →
      bothDone (runSys ctx sched) →
      (runSys ctx sched).procB.result =
        some (SyncValue.skippedDup ctx.book) ∧
      (runSys ctx sched).procB.retried = false ∧
      (runSys ctx sched).procB.transferred = false ∧
      (runSys ctx sched).procA.transferred = true) := by
  intro ctx sched
  refine ⟨(sysInv_run ctx sched).2.1, ?_, ?_⟩
  · intro k hk hwho hApc hBcs hdone
    obtain ⟨hl, hmx, hpA, hpB⟩ := sysInv_run ctx (sched.take k)
    have hAtr : (runSys ctx (sched.take k)).procA.transferred = false :=
      (hpA.2.1 hApc).2.1
    have hBwon : (runSys ctx (sched.take k)).procB.won = true := hpB.1 hBcs
    have hlock : (runSys ctx (sched.take k)).lock = true := by
      rw [hl, hBcs, Bool.or_true]
    have hstepA : (runSys ctx (sched.take (k + 1))).procA =
        { (runSys ctx (sched.take k)).procA with
          pc := SyncPc.done
          result := some (SyncValue.skippedDup ctx.book)
          retried := false } := by
      rw [runSys_take_succ ctx sched k hk, hwho]
      show (stepProc (runSys ctx (sched.take k)).lock
        (runSys ctx (sched.take k)).procA ctx.book ctx.rsA ctx.rA).2 = _
      unfold stepProc
      rw [hApc, if_pos hlock]
    have hstepB : (runSys ctx (sched.take (k + 1))).procB =
        (runSys ctx (sched.take k)).procB := by
      rw [runSys_take_succ ctx sched k hk, hwho]
      rfl
    have hdecomp : runSys ctx sched = (sched.drop (k + 1)).foldl
        (stepSys ctx) (runSys ctx (sched.take (k + 1))) := by
      conv_lhs => rw [← List.take_append_drop (k + 1) sched]
      rw [runSys_append]
    have hdoneA1 : (runSys ctx (sched.take (k + 1))).procA.pc =
        SyncPc.done := by
      rw [hstepA]
    have hfinalA : (runSys ctx sched).procA =
        (runSys ctx (sched.take (k + 1))).procA := by
      rw [hdecomp]
      exact foldl_done_A ctx _ _ hdoneA1
    have hfinalBwon : (runSys ctx sched).procB.won = true := by
      rw [hdecomp]
      apply foldl_won_B
      rw [hstepB]
      exact hBwon
    have hfininv := sysInv_run ctx sched
    refine ⟨?_, ?_, ?_, ?_⟩
    · rw [hfinalA, hstepA]
    · rw [hfinalA, hstepA]
    · rw [hfinalA, hstepA]
      exact hAtr
    · exact ((hfininv.2.2.2).2.2.2.2 hdone.2).1 hfinalBwon
  · intro k hk hwho hBpc hAcs hdone
    obtain ⟨hl, hmx, hpA, hpB⟩ := sysInv_run ctx (sched.take k)
    have hBtr : (runSys ctx (sched.take k)).procB.transferred = false :=
      (hpB.2.1 hBpc).2.1
    have hAwon : (runSys ctx (sched.take k)).procA.won = true := hpA.1 hAcs
    have hlock : (runSys ctx (sched.take k)).lock = true := by
      rw [hl, hAcs, Bool.true_or]
    have hstepB : (runSys ctx (sched.take (k + 1))).procB =
        { (runSys ctx (sched.take k)).procB with
          pc := SyncPc.done
          result := some (SyncValue.skippedDup ctx.book)
          retried := false } := by
      rw [runSys_take_succ ctx sched k hk, hwho]
      show (stepProc (runSys ctx (sched.take k)).lock
        (runSys ctx (sched.take k)).procB ctx.book ctx.rsB ctx.rB).2 = _
      unfold stepProc
      rw [hBpc, if_pos hlock]
    have hstepA : (runSys ctx (sched.take (k + 1))).procA =
        (runSys ctx (sched.take k)).procA := by
      rw [runSys_take_succ ctx sched k hk, hwho]
      rfl
    have hdecomp : runSys ctx sched = (sched.drop (k + 1)).foldl
        (stepSys ctx) (runSys ctx (sched.take (k + 1))) := by
      conv_lhs => rw [← List.take_append_drop (k + 1) sched]
      rw [runSys_append]
    have hdoneB1 : (runSys ctx (sched.take (k + 1))).procB.pc =
        SyncPc.done := by
      rw [hstepB]
    have hfinalB : (runSys ctx sched).procB =
        (runSys ctx (sched.take (k + 1))).procB := by
      rw [hdecomp]
      exact foldl_done_B ctx _ _ hdoneB1
    have hfinalAwon : (runSys ctx sched).procA.won = true := by
      rw [hdecomp]
      apply foldl_won_A
      rw [hstepA]
      exact hAwon
    have hfininv := sysInv_run ctx sched
    refine ⟨?_, ?_, ?_, ?_⟩
    · rw [hfinalB, hstepB]
    · rw [hfinalB, hstepB]
    · rw [hfinalB, hstepB]
      exact hBtr
    · exact ((hfininv.2.2.1).2.2.2.2 hdone.1).1 hfinalAwon

/-- Example scenario: both executions for book `"book"`, successful rsync,
first attempt. -/
def syncCtxEx : SyncCtx :=
  ⟨"book", RsyncOutcome.exit 0 "" "", RsyncOutcome.exit 0 "" "", 0, 0⟩

/-- Concrete instantiation of `C1_sync_lock_exclusivity`: in the schedule
B-acquires, A-attempts (while B holds the lock), B-transfers, B-releases, the
loser A finishes with the skipped/duplicate_request dict, untransferred and
unretried, and the winner B is the one that transferred. -/
theorem C1_sync_lock_exclusivity_witness :
    (runSys syncCtxEx [false, true, false, false]).procA.result =
      some (SyncValue.skippedDup "book") ∧
    (runSys syncCtxEx [false, true, false, false]).procA.retried = false ∧
    (runSys syncCtxEx [false, true, false, false]).procA.transferred = false ∧
    (runSys syncCtxEx [false, true, false, false]).procB.transferred = true :=
  (C1_sync_lock_exclusivity syncCtxEx [false, true, false, false]).2.1 1
    (by decide) rfl rfl rfl ⟨rfl, rfl⟩

/-- Three atomic steps of a single uncontended execution: acquire, transfer,
release. -/
def soloRun (book : String) (rsync : RsyncOutcome) (retries : Nat) :
    Bool × SyncProc :=
  let s1 := stepProc false initProc book rsync retries
  let s2 := stepProc s1.1 s1.2 book rsync retries
  stepProc s2.1 s2.2 book rsync retries

/-- The interleaving machine agrees with the single-execution embedding
`process_sync` when the lock is free: a solo run leaves the lock released and
finishes with exactly the Python value `process_sync` returns (or, where the
machine records a retry, `process_sync` raises the corresponding
`self.retry`). -/
theorem soloRun_matches_process_sync :
    ∀ (db : DB) (r : Nat) (h : String) (chapter : ChapterProcessingData)
      (rsync : RsyncOutcome),
    db.chapters h = some chapter →
    db.strKeys (lockKeyOf chapter.book_name) = none →
    (soloRun chapter.book_name rsync r).1 = false ∧
    (process_sync db r h rsync).outcome =
      (match (soloRun chapter.book_name rsync r).2.result with
       | some v => Outcome.returns v
       | none => Outcome.retryAfter
           (match rsync with
            | RsyncOutcome.timeout => 300
            | RsyncOutcome.exit _ _ _ => 300 * 2 ^ r)) := by
  intro db r h chapter rsync hch hlock
  constructor
  · cases rsync with
    | exit code out err =>
      by_cases hc : code = 0 <;> by_cases hr : r ≥ 3 <;>
        simp [soloRun, stepProc, initProc, hc, hr]
    | timeout =>
      by_cases hr : r ≥ 3 <;> simp [soloRun, stepProc, initProc, hr]
  · unfold process_sync
    rw [hch]
    simp only [hlock, Option.isNone_none, if_true]
    cases rsync with
    | exit code out err =>
      by_cases hc : code = 0 <;> by_cases hr : r ≥ 3 <;>
        simp [soloRun, stepProc, initProc, hc, hr]
    | timeout =>
      by_cases hr : r ≥ 3 <;> simp [soloRun, stepProc, initProc, hr]

/-- And when the lock is already held: `process_sync` returns the
skipped/duplicate_request dict, exactly the result the machine's failed
`tryLock` step records. -/
theorem contended_matches_process_sync :
    ∀ (db : DB) (r : Nat) (h : String) (chapter : ChapterProcessingData)
      (rsync : RsyncOutcome) (v : String),
    db.chapters h = some chapter →
    db.strKeys (lockKeyOf chapter.book_name) = some v →
    (process_sync db r h rsync).outcome =
      Outcome.returns (SyncValue.skippedDup chapter.book_name) ∧
    (stepProc true initProc chapter.book_name rsync r).2.result =
      some (SyncValue.skippedDup chapter.book_name) := by
  intro db r h chapter rsync v hch hlock
  constructor
  · unfold process_sync
    rw [hch]
    simp [hlock]
  · simp [stepProc, initProc]

end TtsLn
